import Mathlib

set_option maxHeartbeats 1000000

/-!
Shallow embedding of `src/scan_error.py` (class `ScanError`), an error
interception and reporting utility.

Modelling conventions:
* Python dictionaries are ordered association lists with Python assignment
  semantics (`dictSet`: overriding keeps the original position, new keys are
  appended; `dictUpdate` folds `dictSet` over the second dict).
* A Python exception is an `Exc` value carrying its type name, its MRO (the
  names of its class and all ancestor classes, used for `isinstance`), the
  result of `str(e)` (`none` models a raising `__str__`), the `__cause__`,
  `__context__`, `__suppress_context__` and `__traceback__` attributes.
* Fallible computations return `Except`; an uncaught Python exception inside
  the reporting machinery is `Except.error ()`.
* The file system is a function `String → FileRead`; `decodeErr` models a
  `UnicodeDecodeError` raised while reading an opened file, `ioErr` models
  `IOError`/`OSError` on `open`.
* `sys.exc_info()[2]` is a *traceback object*; the source's stack walk
  (lines 386-442) treats it as a frame object.  `StackObj` keeps the two
  apart so that the attribute accesses of the walk can be modelled exactly:
  on a traceback object the first access `frame.f_code` raises
  `AttributeError`.
-/

/-- A Python runtime value, abstracted to what the reporter can observe of
it: the result of `str(v)`, where `none` models a `__str__` that raises. -/
structure Value where
  str : Option String
deriving DecidableEq

/-- One entry of `traceback.extract_tb`: `(filename, lineno, name, line)`;
`line` is the source text of the line, possibly unavailable. -/
structure TbEntry where
  filename : String
  lineno : Nat
  funcName : String
  line : Option String
deriving DecidableEq

/-- A Python traceback object, summarised by its `traceback.extract_tb`
frame entries (innermost frame last, as in CPython). -/
structure Tb where
  entries : List TbEntry
deriving DecidableEq

/-- A Python frame object: code and location data, `f_locals`, `f_back`.
`codeLine` is `traceback.extract_stack(frame, limit=1)[0].line`. -/
inductive Frame where
  | mk (filename : String) (lineno : Nat) (funcName : String)
      (codeLine : Option String) (fLocals : List (String × Value))
      (back : Option Frame)

def Frame.filename : Frame → String
  | .mk x _ _ _ _ _ => x

def Frame.lineno : Frame → Nat
  | .mk _ x _ _ _ _ => x

def Frame.funcName : Frame → String
  | .mk _ _ x _ _ _ => x

def Frame.codeLine : Frame → Option String
  | .mk _ _ _ x _ _ => x

def Frame.fLocals : Frame → List (String × Value)
  | .mk _ _ _ _ x _ => x

def Frame.back : Frame → Option Frame
  | .mk _ _ _ _ _ x => x

/-- A Python exception value (`Exception` subclass instance). `mro` holds
the names of the runtime class and of all its ancestor classes, so
`isinstance(e, T)` is membership of `T`'s name in `mro`.  `msg` is the
result of `str(e)` (`none` = raising `__str__`); `cause`, `context`,
`suppressContext`, `tb` model `__cause__`, `__context__`,
`__suppress_context__` and `__traceback__`. -/
inductive Exc where
  | mk (kindName : String) (mro : List String) (msg : Option String)
      (cause : Option Exc) (context : Option Exc) (suppressContext : Bool)
      (tb : Option Tb)

def Exc.kindName : Exc → String
  | .mk x _ _ _ _ _ _ => x

def Exc.mro : Exc → List String
  | .mk _ x _ _ _ _ _ => x

def Exc.msg : Exc → Option String
  | .mk _ _ x _ _ _ _ => x

def Exc.cause : Exc → Option Exc
  | .mk _ _ _ x _ _ _ => x

def Exc.context : Exc → Option Exc
  | .mk _ _ _ _ x _ _ => x

def Exc.suppressContext : Exc → Bool
  | .mk _ _ _ _ _ x _ => x

def Exc.tb : Exc → Option Tb
  | .mk _ _ _ _ _ _ x => x

/-- Python `isinstance(e, cls)`: the fault's runtime kind or any ancestor kind
equals the entry (kind-of matching, not exact type equality). -/
def isInstanceOf (e : Exc) (cls : String) : Bool :=
  e.mro.contains cls

/-- Result of `open(filename).readlines()`: the lines, an `IOError`/`OSError`
on open, or a `UnicodeDecodeError` while decoding the contents. -/
inductive FileRead where
  | ok (lines : List String)
  | ioErr
  | decodeErr
deriving DecidableEq

/-- Caller-frame data recorded by `_extract_context_info` (function name,
filename, line number of `inspect.currentframe().f_back`). -/
structure CallerInfo where
  func : String
  file : String
  line : Nat
deriving DecidableEq

/-! ### Python dict semantics over association lists -/

/-- Python `d[k] = v`: replace in place if the key exists (keeping its
position), otherwise append. -/
def dictSet {α : Type} (d : List (String × α)) (k : String) (v : α) :
    List (String × α) :=
  if (List.lookup k d).isSome then
    d.map (fun p => if p.1 = k then (k, v) else p)
  else d ++ [(k, v)]

/-- Python `d.update(l)`: assign each entry of `l` into `d` in order. -/
def dictUpdate {α : Type} (d l : List (String × α)) : List (String × α) :=
  l.foldl (fun acc p => dictSet acc p.1 p.2) d

/-- Build a dict from a list of assignments (e.g. `kwargs.copy()` where the
input list represents a Python dict). -/
def dictOfList {α : Type} (l : List (String × α)) : List (String × α) :=
  dictUpdate [] l

/-- The value the *last* assignment of `k` in `l` would leave behind: the
effective value of key `k` after `dictUpdate _ l`. -/
def lookupLast {α : Type} : List (String × α) → String → Option α
  | [], _ => none
  | p :: t, k =>
    match lookupLast t k with
    | some v => some v
    | none => if k = p.1 then some p.2 else none

/-! ### String helpers from the source -/

/-- Python `s.rstrip()`. -/
def rstrip (s : String) : String :=
  String.mk ((s.data.reverse.dropWhile Char.isWhitespace).reverse)

/-- Python `len(code) - len(code.lstrip())`, the indent level of line 633. -/
def indentLevelOf (s : String) : Nat :=
  s.data.length - (s.data.dropWhile Char.isWhitespace).length

/-- Python `filename.split('\\')[-1] if '\\' in filename else filename`
(lines 397 and 504). -/
def lastPart (s : String) : String :=
  if s.data.contains '\\' then
    match (s.splitOn "\\").getLast? with
    | some x => x
    | none => s
  else s

/-- Python `key.startswith('_')`. -/
def startsUnderscore (s : String) : Bool :=
  match s.data with
  | [] => false
  | c :: _ => c == '_'

/-- The sensitive-name set of `_extract_context_info` (line 569). -/
def sensitiveKeys : List String :=
  ["password", "token", "secret", "key", "api_key", "auth_token"]

/-- Key redaction test of `_extract_context_info` (line 569): starts with
an underscore, or lies in the sensitive-name set. -/
def isSensitive (k : String) : Bool :=
  startsUnderscore k || sensitiveKeys.contains k

/-- The sensitive-name set of the locals capture (line 405), which adds
`credentials`. -/
def localsSensitiveKeys : List String :=
  ["password", "token", "secret", "key", "api_key", "auth_token",
    "credentials"]

/-- Key redaction test of the locals capture (line 405). -/
def localsSensitive (k : String) : Bool :=
  startsUnderscore k || localsSensitiveKeys.contains k

/-- Python `str_value[:limit] + '...' if len(str_value) > limit` (lines 560, 575,
411). -/
def truncateTo (limit : Nat) (s : String) : String :=
  if limit < s.length then s.take limit ++ "..." else s

/-- Python `str(value)` truncated, with a raising `__str__` caught and replaced by
the fixed placeholder (lines 557-564, 572-579, 408-415). -/
def summarize (limit : Nat) (v : Value) : String :=
  match v.str with
  | some s => truncateTo limit s
  | none => "<unable to represent>"

/-! ### Report data model -/

/-- One link of the exception chain (lines 451-470).  The Python dict holds
an `is_original` key only on the first link; `isOriginal = false` models the
absent key. `relation` and `traceback` model the optional keys. -/
structure ChainLink where
  type : String
  message : String
  index : Nat
  isOriginal : Bool
  relation : Option String
  traceback : Option (List String)
deriving DecidableEq

/-- The `error` record of the report (lines 490-496). -/
structure ErrorRecord where
  type : String
  message : String
  timestamp : String
  exceptionChain : List ChainLink
  level : String
deriving DecidableEq

/-- The `location` record of the report (lines 499-505). -/
structure Location where
  filename : String
  lineNumber : Nat
  functionName : String
  sourceCode : Option String
  module : String
deriving DecidableEq

/-- One entry of the `code_context.lines` window (lines 371-375). -/
structure CodeLine where
  lineNo : Nat
  code : String
  isErrorLine : Bool
deriving DecidableEq

/-- The `code_context` record (lines 508-511). -/
structure CodeCtx where
  lines : List CodeLine
  errorLine : Nat
deriving DecidableEq

/-- One entry of a per-frame `source_context` window (lines 428-433). -/
structure SrcLine where
  lineNo : Nat
  code : String
  isCurrentLine : Bool
deriving DecidableEq

/-- One frame record of `stack_trace` (lines 392-438). -/
structure FrameRecord where
  filename : String
  lineNumber : Nat
  functionName : String
  code : Option String
  module : String
  localVariables : Option (List (String × String))
  sourceContext : Option (List SrcLine)
deriving DecidableEq

/-- One line of the highlighted-code view (lines 629-634). -/
structure HLine where
  lineNo : Nat
  code : String
  type : String
  indentLevel : Nat
deriving DecidableEq

/-- The `highlighted_code` record (lines 609-636). -/
structure Highlighted where
  lines : List HLine
  errorLine : Nat
  errorLineIndex : Int
deriving DecidableEq

/-- The `configuration` snapshot of the report (lines 523-528). -/
structure ConfigSnapshot where
  captureCodeContext : Bool
  captureLocals : Bool
  maxStackDepth : Nat
  errorLevel : String
deriving DecidableEq

/-- A top-level report value.  The structured constructors model the values
built at lines 488-529; `s`, `n` and `raw` model the flat context values
merged in by `error_info.update(context_info)`. -/
inductive RVal where
  | s (v : String)
  | n (v : Nat)
  | raw (v : Value)
  | errRec (v : ErrorRecord)
  | loc (v : Option Location)
  | codeCtx (v : Option CodeCtx)
  | stackTr (v : List FrameRecord)
  | rawTb (v : List String)
  | highlighted (v : Option Highlighted)
  | config (v : ConfigSnapshot)
deriving DecidableEq

/-- A report dictionary. -/
abbrev Dict := List (String × RVal)

/-- Lookup of a top-level report key. -/
def lookupD (d : Dict) (k : String) : Option RVal :=
  List.lookup k d

/-- The `error` record of a report, when the `error` key still holds one. -/
def errRecOf (d : Dict) : Option ErrorRecord :=
  match lookupD d "error" with
  | some (RVal.errRec er) => some er
  | _ => none

/-- The exception chain of a report's `error` record. -/
def errChainOf (d : Dict) : Option (List ChainLink) :=
  (errRecOf d).map ErrorRecord.exceptionChain

/-! ### Fallible primitives -/

/-- Python `str(e)` on an exception, uncaught where the source does not guard it. -/
def strE (e : Exc) : Except Unit String :=
  match e.msg with
  | some m => .ok m
  | none => .error ()

/-- Python `traceback.format_exception(type(e), e, e.__traceback__)`, modelled
abstractly: it renders the exception via `str(e)` and fails when that
raises. -/
def formatExceptionE (e : Exc) : Except Unit (List String) :=
  match e.msg with
  | some m => .ok [e.kindName ++ ": " ++ m]
  | none => .error ()

/-! ### Context extraction (`_extract_context_info`, lines 542-593) -/

/-- The positional-argument loop of `_extract_context_info`
(lines 556-564): `arg_i` keys, summaries at 50 characters. -/
def extractArgsPart (args : List Value) : Dict :=
  (args.enum).foldl
    (fun d p => dictSet d ("arg_" ++ toString p.1) (RVal.s (summarize 50 p.2)))
    ([] : Dict)

/-- The keyword-argument loop of `_extract_context_info` (lines 567-579):
sensitive keys get the fixed placeholder, the rest a 100-character
summary. -/
def extractKwargsPart (kwargs : List (String × Value)) (d : Dict) : Dict :=
  kwargs.foldl
    (fun d p => dictSet d p.1
      (if isSensitive p.1 then RVal.s "<filtered>"
        else RVal.s (summarize 100 p.2)))
    d

/-- The function `_extract_context_info(args, kwargs)`: positional arguments become
`arg_i` summaries at 50 characters, keyword entries are summarised at 100
characters with sensitive keys replaced by the fixed placeholder, and the
caller's function/file/line are appended when obtainable (lines 582-591). -/
def extractContextInfo (args : List Value) (kwargs : List (String × Value))
    (callerInfo : Option CallerInfo) : Dict :=
  match callerInfo with
  | some ci =>
    dictSet (dictSet (dictSet (extractKwargsPart kwargs (extractArgsPart args))
      "caller_function" (RVal.s ci.func))
      "caller_filename" (RVal.s ci.file)) "caller_line_number" (RVal.n ci.line)
  | none => extractKwargsPart kwargs (extractArgsPart args)

/-! ### Stack walking (`_collect_error_info`, lines 384-442) -/

/-- Redacted, truncated snapshot of a frame's `f_locals` (lines 402-415). -/
def processLocals (ls : List (String × Value)) : List (String × String) :=
  ls.foldl
    (fun d p => dictSet d p.1
      (if localsSensitive p.1 then "<filtered>" else summarize 150 p.2))
    []

/-- The ±5-line per-frame source window (lines 422-436); `IOError`,
`OSError` and `UnicodeDecodeError` all silently omit the window. -/
def frameSourceContext (fs : String → FileRead) (filename : String)
    (lineno : Nat) : Option (List SrcLine) :=
  match fs filename with
  | .ok lines =>
    let start := lineno - 6
    let stop := min lines.length (lineno + 5)
    some ((List.range' start (stop - start)).map
      (fun i => ⟨i + 1, rstrip (lines.getD i ""), i + 1 == lineno⟩))
  | _ => none

/-- The frame record built from a frame object (lines 392-438). -/
def buildFrameRecord (fs : String → FileRead) (ccc cl : Bool) (f : Frame) :
    FrameRecord :=
  { filename := f.filename
    lineNumber := f.lineno
    functionName := f.funcName
    code := f.codeLine
    module := lastPart f.filename
    localVariables :=
      if ccc && cl then
        let lv := processLocals f.fLocals
        if lv.isEmpty then none else some lv
      else none
    sourceContext :=
      if ccc then frameSourceContext fs f.filename f.lineno else none }

/-- The object the stack walk iterates over.  The source initialises its
loop variable with `exc_info()[2]`, a traceback object, although the loop
body reads frame attributes. -/
inductive StackObj where
  | tbObj (t : Tb)
  | frameObj (f : Frame)

/-- Reading the frame attributes of the loop variable (line 393,
`frame.f_code` first): a traceback object has `tb_frame`/`tb_next` but no
`f_code`, so the access raises `AttributeError`. -/
def getFrameAttrs : StackObj → Except Unit Frame
  | .tbObj _ => .error ()
  | .frameObj f => .ok f

/-- The walk loop (lines 389-442): while the object is present and fewer
than `maxStackDepth` frames were taken, build a frame record and follow
`f_back`; any exception inside the body breaks the loop, keeping the
records gathered so far. `fuel` is the number of iterations the
`frame_index < max_stack_depth` guard still allows. -/
def walkStackLoop (fs : String → FileRead) (ccc cl : Bool) :
    Nat → Option StackObj → List FrameRecord
  | 0, _ => []
  | _ + 1, none => []
  | fuel + 1, some obj =>
    match getFrameAttrs obj with
    | .error _ => []
    | .ok f =>
      buildFrameRecord fs ccc cl f ::
        walkStackLoop fs ccc cl fuel (f.back.map StackObj.frameObj)

/-- The stack walk starting from `exc_info()[2]` with depth bound
`max_stack_depth`. -/
def walkStack (fs : String → FileRead) (ccc cl : Bool) (maxDepth : Nat)
    (obj : Option StackObj) : List FrameRecord :=
  walkStackLoop fs ccc cl maxDepth obj

/-! ### Exception chain walking (lines 444-482) -/

/-- The `traceback` entry of a chain link (lines 462-468): attached when a
traceback is present, with any formatting failure caught (`except: pass`,
so the entry is simply absent). -/
def chainTbField (cur : Exc) : Option (List String) :=
  if cur.tb.isSome then (formatExceptionE cur).toOption else none

/-- The chain loop: while the fault is present and fewer than 10 links were
indexed, emit a link (`is_original` only at index 0, a formatted trace when
a traceback is attached), then follow `__cause__` first, else `__context__`
unless suppressed, else stop; the followed relation is recorded on the link
just emitted.  `str(current_error)` (line 453) is unguarded, so a raising
`__str__` aborts the whole collection.  `fuel` is the number of iterations
the `chain_index < 10` guard still allows. -/
def chainLoop : Nat → Exc → Nat → Except Unit (List ChainLink)
  | 0, _, _ => .ok []
  | fuel + 1, cur, idx =>
    match strE cur with
    | .error u => .error u
    | .ok msg =>
      match cur.cause with
      | some nxt =>
        match chainLoop fuel nxt (idx + 1) with
        | .error u => .error u
        | .ok rest =>
          .ok (⟨cur.kindName, msg, idx, idx == 0, some "caused_by",
            chainTbField cur⟩ :: rest)
      | none =>
        match cur.context, cur.suppressContext with
        | some nxt, false =>
          match chainLoop fuel nxt (idx + 1) with
          | .error u => .error u
          | .ok rest =>
            .ok (⟨cur.kindName, msg, idx, idx == 0, some "context_for",
              chainTbField cur⟩ :: rest)
        | _, _ =>
          .ok [⟨cur.kindName, msg, idx, idx == 0, none, chainTbField cur⟩]

/-- The exception chain of the reported fault, capped at 10 links. -/
def collectChain (e : Exc) : Except Unit (List ChainLink) :=
  chainLoop 10 e 0

/-! ### Source window of the error location (lines 357-382) -/

/-- The ±10-line window around the error line, clipped to the file
(lines 365-375): rows `max(0, lineno-11) ≤ i < min(len, lineno+10)`, each
entry with 1-based line number, stripped text, and the error flag. -/
def mkWindow (lines : List String) (lineno : Nat) : List CodeLine :=
  let start := lineno - 11
  let stop := min lines.length (lineno + 10)
  (List.range' start (stop - start)).map
    (fun i => ⟨i + 1, rstrip (lines.getD i ""), i + 1 == lineno⟩)

/-- The `code_context` computation (lines 358-382): empty unless capture is
on and a traceback exists; on an `IOError`/`OSError` a single-entry window
with the previously known text of the error line; a `UnicodeDecodeError`
while reading is *not* caught here and aborts the collection. -/
def codeContextPart (ccc : Bool) (tbL : List TbEntry)
    (fs : String → FileRead) : Except Unit (List CodeLine) :=
  if ccc then
    match tbL.getLast? with
    | none => .ok []
    | some last =>
      match fs last.filename with
      | .ok lines => .ok (mkWindow lines last.lineno)
      | .ioErr => .ok [⟨last.lineno, last.line.getD "", true⟩]
      | .decodeErr => .error ()
  else .ok []

/-- The `location` record from the innermost traceback entry
(lines 499-505). -/
def locPart (tbL : List TbEntry) : Option Location :=
  match tbL.getLast? with
  | some last =>
    some ⟨last.filename, last.lineno, last.funcName, last.line,
      lastPart last.filename⟩
  | none => none

/-- The function `_generate_highlighted_code` (lines 596-636). -/
def generateHighlightedCode (cc : List CodeLine) (errLine : Nat) :
    Option Highlighted :=
  if cc.isEmpty then none
  else
    some
      { lines := cc.map (fun li =>
          { lineNo := li.lineNo
            code := li.code
            type :=
              if li.isErrorLine then "error"
              else if li.lineNo < errLine then "before"
              else "after"
            indentLevel := indentLevelOf li.code })
        errorLine := errLine
        errorLineIndex :=
          cc.enum.foldl
            (fun acc p => if p.2.isErrorLine then (p.1 : Int) else acc)
            (-1) }

/-! ### `_collect_error_info` (lines 336-531) -/

/-- Python `traceback.extract_tb(exc_info[2]) if exc_info[2] is not None else []`
(line 355). -/
def tbEntriesOf (excTb : Option Tb) : List TbEntry :=
  match excTb with
  | some t => t.entries
  | none => []

/-- The report dictionary literal of lines 488-529, in source order:
error record, location, code context, stack trace, raw traceback,
highlighted code, configuration. -/
def assembleInfo (e : Exc) (ccc : Bool) (lvl : String) (cl : Bool)
    (maxD : Nat) (tbL : List TbEntry) (codeCtx : List CodeLine)
    (st : List FrameRecord) (chain : List ChainLink) (fullTb : List String)
    (msg : String) (ts : String) : Dict :=
  [("error", RVal.errRec ⟨e.kindName, msg, ts, chain, lvl⟩),
    ("location", RVal.loc (locPart tbL)),
    ("code_context", RVal.codeCtx
      (if ccc && !tbL.isEmpty then
        some ⟨codeCtx, (tbL.getLast?.map TbEntry.lineno).getD 0⟩
      else none)),
    ("stack_trace", RVal.stackTr st),
    ("raw_traceback", RVal.rawTb fullTb),
    ("highlighted_code", RVal.highlighted
      (if ccc && !tbL.isEmpty then
        generateHighlightedCode codeCtx
          ((tbL.getLast?.map TbEntry.lineno).getD 0)
      else none)),
    ("configuration", RVal.config ⟨ccc, cl, maxD, lvl⟩)]

/-- The function `_collect_error_info(error, ...)`: assembles the report dictionary in
source order.  `excTb` is `sys.exc_info()[2]` at collection time; the stack
walk receives it as the raw traceback *object* while `extract_tb` yields
its entries. -/
def collectErrorInfo (e : Exc) (ccc : Bool) (lvl : String) (cl : Bool)
    (maxD : Nat) (excTb : Option Tb) (fs : String → FileRead) (ts : String) :
    Except Unit Dict :=
  match codeContextPart ccc (tbEntriesOf excTb) fs with
  | .error u => .error u
  | .ok codeCtx =>
    match collectChain e with
    | .error u => .error u
    | .ok chain =>
      match formatExceptionE e with
      | .error u => .error u
      | .ok fullTb =>
        match strE e with
        | .error u => .error u
        | .ok msg =>
          .ok (assembleInfo e ccc lvl cl maxD (tbEntriesOf excTb) codeCtx
            (walkStack fs ccc cl maxD (excTb.map StackObj.tbObj))
            chain fullTb msg ts)

/-! ### Argument filtering (`_filter_arguments`, lines 246-284) -/

/-- The reserved context-key set (lines 265-268). -/
def contextKeys : List String :=
  ["target_type", "target_user_id", "target_group_id", "event",
    "error_context", "custom_context", "ignore_errors", "propagate_errors"]

/-- The function `_filter_arguments(func, kwargs)`: with a signature available keep a key
iff it is a declared parameter or not a reserved context key; without one
(introspection failed) keep every key that is not reserved. -/
def filterArguments (params : Option (List String))
    (kwargs : List (String × Value)) : List (String × Value) :=
  match params with
  | some ps =>
    kwargs.filter (fun p => ps.contains p.1 || !contextKeys.contains p.1)
  | none => kwargs.filter (fun p => !contextKeys.contains p.1)

/-! ### The exception handler (`_handle_exception`, lines 106-164) -/

/-- The per-wrapper configuration closed over by `_handle_exception`:
the classification sets, the static custom context, the capture options,
and `context_decorator_kwargs` (the decorator kwargs minus the four popped
configuration keys, lines 100-103). -/
structure HandlerCfg where
  ignoreErrors : List String
  propagateErrors : List String
  customContext : List (String × Value)
  captureCodeContext : Bool
  errorLevel : String
  captureLocals : Bool
  maxStackDepth : Nat
  contextDecoratorKwargs : List (String × Value)

/-- The dict `original_func_info` captured at wrap time (lines 83-88). -/
structure DecoratedInfo where
  name : String
  module : String
  filename : String
  lineno : Nat
deriving DecidableEq

/-- Interpreter-state inputs of a handling run: the `event` local found two
frames up by the recovery code (lines 123-133) if any, the caller-frame
data of `_extract_context_info`, the file system and the report
timestamp. -/
structure HandlerEnv where
  recoveredEvent : Option Value
  callerInfo : Option CallerInfo
  fs : String → FileRead
  timestamp : String

/-- The four `decorated_function_*` context entries (lines 143-145);
values are passed through `str`. -/
def decoratedEntries (dec : DecoratedInfo) : List (String × RVal) :=
  [("decorated_function_name", RVal.s dec.name),
    ("decorated_function_module", RVal.s dec.module),
    ("decorated_function_filename", RVal.s dec.filename),
    ("decorated_function_lineno", RVal.s (toString dec.lineno))]

/-- The dict `context_kwargs` of lines 119-133: the call kwargs copied and updated
with the decorator kwargs, then the recovered `event` added when the key is
missing. -/
def contextKwargsOf (cfg : HandlerCfg) (env : HandlerEnv)
    (kwargs : List (String × Value)) : List (String × Value) :=
  let ck := dictUpdate (dictOfList kwargs) cfg.contextDecoratorKwargs
  if (List.lookup "event" ck).isNone then
    match env.recoveredEvent with
    | some v => dictSet ck "event" v
    | none => ck
  else ck

/-- The context mapping assembled at lines 117-145: the context kwargs run
through `_extract_context_info`, then `custom_context` assigned on top
(raw values, not summarised), then the `decorated_function_*` entries
assigned last. -/
def buildContext (cfg : HandlerCfg) (dec : DecoratedInfo) (env : HandlerEnv)
    (args : List Value) (kwargs : List (String × Value)) : Dict :=
  dictUpdate
    (dictUpdate
      (extractContextInfo args (contextKwargsOf cfg env kwargs)
        env.callerInfo)
      (cfg.customContext.map (fun p => (p.1, RVal.raw p.2))))
    (decoratedEntries dec)

/-- Outcome of `_handle_exception`: the value returned to the wrapper
(`Except.error e` models the bare re-raise of line 115) and the reports
passed to the registered handler. -/
structure HandleResult where
  ret : Except Exc String
  sinkReports : List Dict

/-- The function `_handle_exception(e, args, kwargs)` (lines 106-164): ignore test, then
propagate test, then — inside one big `try` whose failure is only logged —
context building, collection, `error_info.update(context_info)` and the
handler call; the fault-kind name is returned in every non-propagating
case. -/
def handleException (cfg : HandlerCfg) (dec : DecoratedInfo)
    (env : HandlerEnv) (e : Exc) (args : List Value)
    (kwargs : List (String × Value)) : HandleResult :=
  if cfg.ignoreErrors.any (fun c => isInstanceOf e c) then
    ⟨.ok e.kindName, []⟩
  else if cfg.propagateErrors.any (fun c => isInstanceOf e c) then
    ⟨.error e, []⟩
  else
    match collectErrorInfo e cfg.captureCodeContext cfg.errorLevel
      cfg.captureLocals cfg.maxStackDepth e.tb env.fs env.timestamp with
    | .error _ => ⟨.ok e.kindName, []⟩
    | .ok info =>
      ⟨.ok e.kindName,
        [dictUpdate info (buildContext cfg dec env args kwargs)]⟩

/-! ### The wrapper (`make_wrapper`, lines 167-192) -/

/-- What a wrapped call returns when it does not re-raise: the target's
value, or the fault-kind name sentinel. -/
inductive CallResult where
  | val (v : Value)
  | sentinel (name : String)
deriving DecidableEq

/-- A target callable: its invocation behaviour on positional and keyword
arguments, and the parameter names `inspect.signature` reports (`none` when
introspection is unavailable). -/
structure Target where
  params : Option (List String)
  run : List Value → List (String × Value) → Except Exc Value

/-- Outcome of one call through the wrapper. -/
structure WrapOutcome where
  ret : Except Exc CallResult
  sinkReports : List Dict

/-- One call through the (sync or async) wrapper (lines 169-192): filter the
keyword arguments, invoke the target, and on any `Exception` run
`_handle_exception` with the *original* arguments. -/
def wrapperCall (t : Target) (cfg : HandlerCfg) (dec : DecoratedInfo)
    (env : HandlerEnv) (args : List Value)
    (kwargs : List (String × Value)) : WrapOutcome :=
  match t.run args (filterArguments t.params kwargs) with
  | .ok v => ⟨.ok (.val v), []⟩
  | .error e =>
    let h := handleException cfg dec env e args kwargs
    ⟨Except.map CallResult.sentinel h.ret, h.sinkReports⟩

/-! ### Manual reporting (`report_error`, lines 286-317) -/

/-- The method `report_error(error_type, error_reason, capture_code_context,
**kwargs)`: synthesize `error_type(error_reason)` (a fresh exception with
no cause, context or traceback whose `str` is the reason), extract context
from the remaining kwargs, collect, merge and dispatch.  The configuration
options popped from `kwargs` (lines 298-300) are the explicit `lvl`, `cl`,
`maxD` parameters; `activeTb` is `sys.exc_info()[2]` at the call.  There is
no `try` here: a collection failure propagates to the caller. -/
def reportError (kindName : String) (mro : List String) (reason : String)
    (ccc : Bool) (lvl : String) (cl : Bool) (maxD : Nat)
    (kwargs : List (String × Value)) (callerInfo : Option CallerInfo)
    (activeTb : Option Tb) (fs : String → FileRead) (ts : String) :
    Except Unit (List Dict) :=
  let e := Exc.mk kindName mro (some reason) none none false none
  let ctx := extractContextInfo [] (dictOfList kwargs) callerInfo
  match collectErrorInfo e ccc lvl cl maxD activeTb fs ts with
  | .error u => .error u
  | .ok info => .ok [dictUpdate info ctx]

/-! ## Lemmas about the dictionary model -/

theorem lookup_cons_ne {α : Type} {k k1 : String} (v1 : α)
    (t : List (String × α)) (h : k ≠ k1) :
    List.lookup k ((k1, v1) :: t) = List.lookup k t := by
  rw [List.lookup_cons]
  have hb : (k == k1) = false := beq_eq_false_iff_ne.mpr h
  rw [hb]

theorem lookup_map_set {α : Type} (k : String) (v : α) :
    ∀ d : List (String × α), (List.lookup k d).isSome = true →
      List.lookup k (d.map (fun p => if p.1 = k then (k, v) else p)) =
        some v := by
  intro d
  induction d with
  | nil => intro h; simp at h
  | cons p t ih =>
    intro h
    obtain ⟨k1, v1⟩ := p
    by_cases hk : k1 = k
    · subst hk
      simp
    · have hkk : k ≠ k1 := fun e => hk e.symm
      rw [lookup_cons_ne v1 t hkk] at h
      rw [List.map_cons]
      show List.lookup k ((if k1 = k then (k, v) else (k1, v1)) :: _) = some v
      rw [if_neg hk, lookup_cons_ne _ _ hkk]
      exact ih h

theorem lookup_dictSet_self {α : Type} (d : List (String × α)) (k : String)
    (v : α) : List.lookup k (dictSet d k v) = some v := by
  unfold dictSet
  by_cases h : (List.lookup k d).isSome
  · rw [if_pos h]
    exact lookup_map_set k v d h
  · rw [if_neg h]
    have hn : List.lookup k d = none := by
      cases hl : List.lookup k d with
      | none => rfl
      | some w => rw [hl] at h; simp at h
    rw [List.lookup_append, hn]
    simp

theorem lookup_map_set_ne {α : Type} (k k' : String) (v : α) (h : k' ≠ k) :
    ∀ d : List (String × α),
      List.lookup k' (d.map (fun p => if p.1 = k then (k, v) else p)) =
        List.lookup k' d := by
  intro d
  induction d with
  | nil => simp
  | cons p t ih =>
    obtain ⟨k1, v1⟩ := p
    rw [List.map_cons]
    by_cases hk : k1 = k
    · subst hk
      show List.lookup k' ((if k1 = k1 then (k1, v) else (k1, v1)) :: _) =
        List.lookup k' ((k1, v1) :: t)
      rw [if_pos rfl, lookup_cons_ne v _ h, lookup_cons_ne v1 t h]
      exact ih
    · show List.lookup k' ((if k1 = k then (k, v) else (k1, v1)) :: _) =
        List.lookup k' ((k1, v1) :: t)
      rw [if_neg hk]
      by_cases hq : k' = k1
      · subst hq
        rw [List.lookup_cons_self, List.lookup_cons_self]
      · rw [lookup_cons_ne v1 _ hq, lookup_cons_ne v1 t hq]
        exact ih

theorem lookup_dictSet_ne {α : Type} (d : List (String × α)) (k k' : String)
    (v : α) (h : k' ≠ k) :
    List.lookup k' (dictSet d k v) = List.lookup k' d := by
  unfold dictSet
  split
  · exact lookup_map_set_ne k k' v h d
  · rw [List.lookup_append]
    cases hl : List.lookup k' d with
    | some w => simp
    | none =>
      simp only [Option.none_or]
      rw [lookup_cons_ne v [] h]
      simp

theorem dictUpdate_cons {α : Type} (d : List (String × α)) (p : String × α)
    (t : List (String × α)) :
    dictUpdate d (p :: t) = dictUpdate (dictSet d p.1 p.2) t := rfl

theorem lookup_dictUpdate_none {α : Type} :
    ∀ (l d : List (String × α)) (k : String), lookupLast l k = none →
      List.lookup k (dictUpdate d l) = List.lookup k d := by
  intro l
  induction l with
  | nil => intro d k _; rfl
  | cons p t ih =>
    intro d k h
    unfold lookupLast at h
    have ht : lookupLast t k = none := by
      cases hl : lookupLast t k with
      | none => rfl
      | some w => rw [hl] at h; simp at h
    rw [ht] at h
    have hk : k ≠ p.1 := by
      by_cases hkk : k = p.1
      · rw [if_pos hkk] at h; simp at h
      · exact hkk
    rw [dictUpdate_cons, ih (dictSet d p.1 p.2) k ht]
    exact lookup_dictSet_ne d p.1 k p.2 hk

theorem lookup_dictUpdate_some {α : Type} :
    ∀ (l d : List (String × α)) (k : String) (v : α),
      lookupLast l k = some v →
      List.lookup k (dictUpdate d l) = some v := by
  intro l
  induction l with
  | nil => intro d k v h; simp [lookupLast] at h
  | cons p t ih =>
    intro d k v h
    unfold lookupLast at h
    rw [dictUpdate_cons]
    cases hl : lookupLast t k with
    | some w =>
      rw [hl] at h
      have hwv : w = v := by simpa using h
      subst hwv
      exact ih (dictSet d p.1 p.2) k w hl
    | none =>
      rw [hl] at h
      by_cases hkk : k = p.1
      · rw [if_pos hkk] at h
        have hv : p.2 = v := by simpa using h
        subst hv
        rw [lookup_dictUpdate_none t (dictSet d p.1 p.2) k hl, hkk]
        exact lookup_dictSet_self d p.1 p.2
      · rw [if_neg hkk] at h; simp at h

/-- Distinctness of the keys of a dict. -/
def nodupKeys {α : Type} (d : List (String × α)) : Prop :=
  (d.map Prod.fst).Nodup

theorem keys_map_set {α : Type} (k : String) (v : α) :
    ∀ d : List (String × α),
      (d.map (fun p => if p.1 = k then (k, v) else p)).map Prod.fst =
        d.map Prod.fst := by
  intro d
  induction d with
  | nil => rfl
  | cons p t ih =>
    obtain ⟨k1, v1⟩ := p
    by_cases hk : k1 = k
    · subst hk
      show Prod.fst (if k1 = k1 then (k1, v) else (k1, v1)) :: _ = _
      rw [if_pos rfl]
      show k1 :: _ = k1 :: _
      rw [ih]
    · show Prod.fst (if k1 = k then (k, v) else (k1, v1)) :: _ = _
      rw [if_neg hk]
      show k1 :: _ = k1 :: _
      rw [ih]

theorem lookup_mem_keys {α : Type} {d : List (String × α)} {k : String}
    {w : α} (h : List.lookup k d = some w) : k ∈ d.map Prod.fst := by
  have hs : (List.lookup k d).isSome = true := by rw [h]; rfl
  rw [List.lookup_isSome_iff] at hs
  obtain ⟨p, hp, he⟩ := hs
  have hk : k = p.1 := by simpa using he
  subst hk
  exact List.mem_map.mpr ⟨p, hp, rfl⟩

theorem nodupKeys_dictSet {α : Type} (d : List (String × α)) (k : String)
    (v : α) (h : nodupKeys d) : nodupKeys (dictSet d k v) := by
  unfold dictSet
  split
  · show nodupKeys _
    unfold nodupKeys
    rw [keys_map_set]
    exact h
  next hns =>
    unfold nodupKeys
    rw [List.map_append]
    rw [List.nodup_append]
    refine ⟨h, by simp, ?_⟩
    intro a ha hb
    have hk : a = k := by simpa using hb
    subst hk
    have hnone : List.lookup a d = none := by
      cases hl : List.lookup a d with
      | none => rfl
      | some w => exact absurd (by rw [hl]; rfl) hns
    rw [List.lookup_eq_none_iff] at hnone
    obtain ⟨p, hp, he⟩ := List.mem_map.mp ha
    have := hnone p hp
    rw [← he] at this
    simp at this

theorem nodupKeys_dictUpdate {α : Type} :
    ∀ (l d : List (String × α)), nodupKeys d → nodupKeys (dictUpdate d l) := by
  intro l
  induction l with
  | nil => intro d h; exact h
  | cons p t ih =>
    intro d h
    rw [dictUpdate_cons]
    exact ih _ (nodupKeys_dictSet d p.1 p.2 h)

theorem nodupKeys_dictOfList {α : Type} (l : List (String × α)) :
    nodupKeys (dictOfList l) :=
  nodupKeys_dictUpdate l [] (by simp [nodupKeys])

theorem lookupLast_eq_lookup {α : Type} :
    ∀ d : List (String × α), nodupKeys d →
      ∀ k, lookupLast d k = List.lookup k d := by
  intro d
  induction d with
  | nil => intro _ k; rfl
  | cons p t ih =>
    intro h k
    obtain ⟨k1, v1⟩ := p
    have h' : nodupKeys t := by
      unfold nodupKeys at h ⊢
      rw [List.map_cons] at h
      exact (List.nodup_cons.mp h).2
    have hk1 : k1 ∉ t.map Prod.fst := by
      unfold nodupKeys at h
      rw [List.map_cons] at h
      exact (List.nodup_cons.mp h).1
    unfold lookupLast
    rw [ih h' k]
    cases hl : List.lookup k t with
    | some w =>
      have hmem : k ∈ t.map Prod.fst := lookup_mem_keys hl
      have hne : k ≠ k1 := by
        intro he
        subst he
        exact hk1 hmem
      rw [lookup_cons_ne v1 t hne, hl]
    | none =>
      by_cases hkk : k = k1
      · subst hkk
        rw [if_pos rfl, List.lookup_cons_self]
      · rw [if_neg (by simpa using hkk), lookup_cons_ne v1 t hkk, hl]

theorem mem_dictSet {α : Type} {x : String × α} {d : List (String × α)}
    {k : String} {v : α} (h : x ∈ dictSet d k v) : x ∈ d ∨ x = (k, v) := by
  unfold dictSet at h
  split at h
  · obtain ⟨p, hp, he⟩ := List.mem_map.mp h
    by_cases hk : p.1 = k
    · rw [if_pos hk] at he
      right
      exact he.symm
    · rw [if_neg hk] at he
      left
      rw [← he]
      exact hp
  · rcases List.mem_append.mp h with h1 | h2
    · left; exact h1
    · right; simpa using h2

theorem foldl_dictSet_pred {α β : Type} (P : String × α → Prop)
    (key : β → String) (val : β → α) (hf : ∀ b, P (key b, val b)) :
    ∀ (l : List β) (d : List (String × α)), (∀ x ∈ d, P x) →
      ∀ x ∈ l.foldl (fun acc b => dictSet acc (key b) (val b)) d, P x := by
  intro l
  induction l with
  | nil => intro d hd x hx; exact hd x hx
  | cons b t ih =>
    intro d hd x hx
    refine ih (dictSet d (key b) (val b)) ?_ x hx
    intro y hy
    rcases mem_dictSet hy with h1 | h2
    · exact hd y h1
    · rw [h2]; exact hf b

/-! ## Bounds of the walkers -/

theorem walkStackLoop_length (fs : String → FileRead) (ccc cl : Bool) :
    ∀ (fuel : Nat) (obj : Option StackObj),
      (walkStackLoop fs ccc cl fuel obj).length ≤ fuel := by
  intro fuel
  induction fuel with
  | zero => intro obj; simp [walkStackLoop]
  | succ n ih =>
    intro obj
    cases obj with
    | none => simp [walkStackLoop]
    | some o =>
      unfold walkStackLoop
      cases h : getFrameAttrs o with
      | error u => simp [h]
      | ok f =>
        simp only [h, List.length_cons]
        exact Nat.succ_le_succ (ih _)

theorem chainLoop_length :
    ∀ (fuel : Nat) (cur : Exc) (idx : Nat) (l : List ChainLink),
      chainLoop fuel cur idx = .ok l → l.length ≤ fuel := by
  intro fuel
  induction fuel with
  | zero =>
    intro cur idx l h
    have : l = [] := by
      unfold chainLoop at h
      simpa using h.symm
    rw [this]
    simp
  | succ n ih =>
    intro cur idx l h
    unfold chainLoop at h
    split at h
    · simp at h
    · split at h
      · split at h
        · simp at h
        next rest hr =>
          rw [Except.ok.injEq] at h
          rw [← h]
          simp only [List.length_cons]
          exact Nat.succ_le_succ (ih _ _ rest hr)
      · split at h
        · split at h
          · simp at h
          next rest hr =>
            rw [Except.ok.injEq] at h
            rw [← h]
            simp only [List.length_cons]
            exact Nat.succ_le_succ (ih _ _ rest hr)
        · rw [Except.ok.injEq] at h
          rw [← h]
          simp

/-! ## Inversion of the collection step -/

theorem collectErrorInfo_ok_iff {e : Exc} {ccc : Bool} {lvl : String}
    {cl : Bool} {maxD : Nat} {excTb : Option Tb} {fs : String → FileRead}
    {ts : String} {info : Dict} :
    collectErrorInfo e ccc lvl cl maxD excTb fs ts = .ok info ↔
      ∃ codeCtx chain fullTb msg,
        codeContextPart ccc (tbEntriesOf excTb) fs = .ok codeCtx ∧
        collectChain e = .ok chain ∧
        formatExceptionE e = .ok fullTb ∧
        strE e = .ok msg ∧
        info = assembleInfo e ccc lvl cl maxD (tbEntriesOf excTb) codeCtx
          (walkStack fs ccc cl maxD (excTb.map StackObj.tbObj)) chain fullTb
          msg ts := by
  constructor
  · intro h
    unfold collectErrorInfo at h
    split at h
    · simp at h
    next codeCtx hcc =>
      split at h
      · simp at h
      next chain hch =>
        split at h
        · simp at h
        next fullTb hf =>
          split at h
          · simp at h
          next msg hm =>
            rw [Except.ok.injEq] at h
            exact ⟨codeCtx, chain, fullTb, msg, hcc, hch, hf, hm, h.symm⟩
  · rintro ⟨codeCtx, chain, fullTb, msg, hcc, hch, hf, hm, rfl⟩
    unfold collectErrorInfo
    rw [hcc, hch, hf, hm]

theorem assembleInfo_error (e : Exc) (ccc : Bool) (lvl : String) (cl : Bool)
    (maxD : Nat) (tbL : List TbEntry) (codeCtx : List CodeLine)
    (st : List FrameRecord) (chain : List ChainLink) (fullTb : List String)
    (msg ts : String) :
    lookupD (assembleInfo e ccc lvl cl maxD tbL codeCtx st chain fullTb msg
        ts) "error" =
      some (RVal.errRec ⟨e.kindName, msg, ts, chain, lvl⟩) := rfl

theorem assembleInfo_location (e : Exc) (ccc : Bool) (lvl : String)
    (cl : Bool) (maxD : Nat) (tbL : List TbEntry) (codeCtx : List CodeLine)
    (st : List FrameRecord) (chain : List ChainLink) (fullTb : List String)
    (msg ts : String) :
    lookupD (assembleInfo e ccc lvl cl maxD tbL codeCtx st chain fullTb msg
        ts) "location" =
      some (RVal.loc (locPart tbL)) := rfl

theorem assembleInfo_code_context (e : Exc) (ccc : Bool) (lvl : String)
    (cl : Bool) (maxD : Nat) (tbL : List TbEntry) (codeCtx : List CodeLine)
    (st : List FrameRecord) (chain : List ChainLink) (fullTb : List String)
    (msg ts : String) :
    lookupD (assembleInfo e ccc lvl cl maxD tbL codeCtx st chain fullTb msg
        ts) "code_context" =
      some (RVal.codeCtx
        (if ccc && !tbL.isEmpty then
          some ⟨codeCtx, (tbL.getLast?.map TbEntry.lineno).getD 0⟩
        else none)) := rfl

theorem assembleInfo_stack_trace (e : Exc) (ccc : Bool) (lvl : String)
    (cl : Bool) (maxD : Nat) (tbL : List TbEntry) (codeCtx : List CodeLine)
    (st : List FrameRecord) (chain : List ChainLink) (fullTb : List String)
    (msg ts : String) :
    lookupD (assembleInfo e ccc lvl cl maxD tbL codeCtx st chain fullTb msg
        ts) "stack_trace" =
      some (RVal.stackTr st) := rfl

/-! ## Sensitivity of keys -/

theorem argKey_not_sensitive (t : String) :
    isSensitive ("arg_" ++ t) = false := by
  obtain ⟨l⟩ := t
  rfl

theorem sensitive_imp_locals (k : String) (h : isSensitive k = true) :
    localsSensitive k = true := by
  unfold isSensitive at h
  unfold localsSensitive
  rcases (Bool.or_eq_true _ _).mp h with h1 | h2
  · rw [h1]
    rfl
  · apply (Bool.or_eq_true _ _).mpr
    right
    simp only [sensitiveKeys] at h2
    simp only [localsSensitiveKeys]
    simp at h2 ⊢
    tauto

/-! ## Claim C4 -/

/-- C4: in every extracted context mapping and every captured-locals
snapshot, an entry whose key is in the sensitive-name set (`password`,
`token`, `secret`, `key`, `api_key`, `auth_token`, or any key starting
with an underscore) carries the fixed redaction placeholder `<filtered>`
as its value, never the real value, regardless of the value and of the
truncation limits. -/
theorem C4_redaction :
    (∀ (args : List Value) (kwargs : List (String × Value))
        (ci : Option CallerInfo) (k : String) (rv : RVal),
      (k, rv) ∈ extractContextInfo args kwargs ci → isSensitive k = true →
        rv = RVal.s "<filtered>") ∧
    (∀ (ls : List (String × Value)) (k s : String),
      (k, s) ∈ processLocals ls → isSensitive k = true →
        s = "<filtered>") := by
  have hargs : ∀ (args : List Value) (x : String × RVal),
      x ∈ extractArgsPart args →
        (isSensitive x.1 = true → x.2 = RVal.s "<filtered>") := by
    intro args x hx
    unfold extractArgsPart at hx
    refine foldl_dictSet_pred
      (fun x => isSensitive x.1 = true → x.2 = RVal.s "<filtered>")
      (fun p => "arg_" ++ toString p.1)
      (fun p => RVal.s (summarize 50 p.2)) ?_ args.enum [] ?_ x hx
    · intro b hs
      rw [argKey_not_sensitive] at hs
      cases hs
    · intro y hy
      cases hy
  have hkw : ∀ (args : List Value) (kwargs : List (String × Value))
      (x : String × RVal), x ∈ extractKwargsPart kwargs (extractArgsPart args) →
        (isSensitive x.1 = true → x.2 = RVal.s "<filtered>") := by
    intro args kwargs x hx
    unfold extractKwargsPart at hx
    refine foldl_dictSet_pred
      (fun x => isSensitive x.1 = true → x.2 = RVal.s "<filtered>")
      Prod.fst
      (fun p => if isSensitive p.1 then RVal.s "<filtered>"
        else RVal.s (summarize 100 p.2)) ?_ kwargs (extractArgsPart args)
      (hargs args) x hx
    intro b hs
    show (if isSensitive b.1 = true then RVal.s "<filtered>"
      else RVal.s (summarize 100 b.2)) = RVal.s "<filtered>"
    rw [if_pos hs]
  constructor
  · intro args kwargs ci k rv hmem hsens
    unfold extractContextInfo at hmem
    cases ci with
    | none => exact hkw args kwargs (k, rv) hmem hsens
    | some c =>
      rcases mem_dictSet hmem with h1 | h0
      · rcases mem_dictSet h1 with h2 | h0
        · rcases mem_dictSet h2 with h3 | h0
          · exact hkw args kwargs (k, rv) h3 hsens
          · injection h0 with hk hv
            rw [hk] at hsens
            exact absurd hsens (by decide)
        · injection h0 with hk hv
          rw [hk] at hsens
          exact absurd hsens (by decide)
      · injection h0 with hk hv
        rw [hk] at hsens
        exact absurd hsens (by decide)
  · intro ls k s hmem hsens
    unfold processLocals at hmem
    refine foldl_dictSet_pred
      (fun x => isSensitive x.1 = true → x.2 = "<filtered>")
      Prod.fst
      (fun p => if localsSensitive p.1 then "<filtered>"
        else summarize 150 p.2) ?_ ls [] ?_ (k, s) hmem hsens
    · intro b hs
      show (if localsSensitive b.1 = true then "<filtered>"
        else summarize 150 b.2) = "<filtered>"
      rw [if_pos (sensitive_imp_locals b.1 hs)]
    · intro y hy
      cases hy

/-- Witness for C4: a `password` keyword argument and a `_secret` local are
both rendered as the placeholder. -/
theorem C4_witness :
    (("password", RVal.s "<filtered>") ∈
        extractContextInfo [⟨some "10"⟩]
          [("password", ⟨some "hunter2"⟩), ("user", ⟨some "alice"⟩)]
          (some ⟨"main", "app.py", 7⟩) ∧
      isSensitive "password" = true →
        RVal.s "<filtered>" = RVal.s "<filtered>") ∧
    (RVal.s "<filtered>" = RVal.s "<filtered>") ∧
    (∀ rv : RVal, ("password", rv) ∈
        extractContextInfo [⟨some "10"⟩]
          [("password", ⟨some "hunter2"⟩), ("user", ⟨some "alice"⟩)]
          (some ⟨"main", "app.py", 7⟩) → rv = RVal.s "<filtered>") ∧
    (∀ s : String, ("_secret", s) ∈
        processLocals [("_secret", ⟨some "k3y"⟩), ("x", ⟨some "1"⟩)] →
          s = "<filtered>") := by
  refine ⟨fun _ => rfl, rfl, ?_, ?_⟩
  · intro rv hmem
    exact C4_redaction.1 [⟨some "10"⟩]
      [("password", ⟨some "hunter2"⟩), ("user", ⟨some "alice"⟩)]
      (some ⟨"main", "app.py", 7⟩) "password" rv hmem (by decide)
  · intro s hmem
    exact C4_redaction.2 [("_secret", ⟨some "k3y"⟩), ("x", ⟨some "1"⟩)]
      "_secret" s hmem (by decide)

theorem errRecOf_assembleInfo (e : Exc) (ccc : Bool) (lvl : String)
    (cl : Bool) (maxD : Nat) (tbL : List TbEntry) (codeCtx : List CodeLine)
    (st : List FrameRecord) (chain : List ChainLink) (fullTb : List String)
    (msg ts : String) :
    errRecOf (assembleInfo e ccc lvl cl maxD tbL codeCtx st chain fullTb msg
        ts) =
      some ⟨e.kindName, msg, ts, chain, lvl⟩ := rfl

/-! ## Claim C5 -/

/-- C5: in every assembled report, the `stack_trace` sequence has length at
most the configured `max_stack_depth`, and the `exception_chain` sequence
has length at most 10, for every fault and every configuration. -/
theorem C5_bounds (e : Exc) (ccc : Bool) (lvl : String) (cl : Bool)
    (maxD : Nat) (excTb : Option Tb) (fs : String → FileRead) (ts : String)
    (info : Dict)
    (h : collectErrorInfo e ccc lvl cl maxD excTb fs ts = .ok info) :
    (∀ l, lookupD info "stack_trace" = some (RVal.stackTr l) →
      l.length ≤ maxD) ∧
    (∀ er, errRecOf info = some er → er.exceptionChain.length ≤ 10) := by
  obtain ⟨codeCtx, chain, fullTb, msg, hcc, hch, hf, hm, rfl⟩ :=
    collectErrorInfo_ok_iff.mp h
  constructor
  · intro l hl
    rw [assembleInfo_stack_trace] at hl
    have hst : walkStack fs ccc cl maxD (excTb.map StackObj.tbObj) = l := by
      simpa using hl
    rw [← hst]
    exact walkStackLoop_length fs ccc cl maxD _
  · intro er her
    rw [errRecOf_assembleInfo] at her
    have hre : er = ⟨e.kindName, msg, ts, chain, lvl⟩ := by
      simpa using her.symm
    rw [hre]
    exact chainLoop_length 10 e 0 chain hch

/-- A simple fault with no cause, context or traceback, used as a concrete
input. -/
def plainExcV : Exc :=
  Exc.mk "ValueError" ["ValueError", "Exception"] (some "bad") none none
    false none

/-- The report that collection produces for `plainExcV` under the default
configuration with no active traceback. -/
def plainInfoV : Dict :=
  assembleInfo plainExcV true "DEBUG" false 10 [] [] []
    [⟨"ValueError", "bad", 0, true, none, none⟩] ["ValueError: bad"] "bad"
    "ts"

/-- Witness for C5 at a concrete input. -/
theorem C5_witness :
    collectErrorInfo plainExcV true "DEBUG" false 10 none
        (fun _ => FileRead.ioErr) "ts" = .ok plainInfoV ∧
    ((∀ l, lookupD plainInfoV "stack_trace" = some (RVal.stackTr l) →
        l.length ≤ 10) ∧
      (∀ er, errRecOf plainInfoV = some er →
        er.exceptionChain.length ≤ 10)) :=
  ⟨rfl, C5_bounds plainExcV true "DEBUG" false 10 none
    (fun _ => FileRead.ioErr) "ts" plainInfoV rfl⟩

/-! ## Claim C3 -/

/-- The fault thrown by the `divide(10, 0)` scenario: a
`ZeroDivisionError` whose traceback holds the frame of the division. -/
def divideExc : Exc :=
  Exc.mk "ZeroDivisionError"
    ["ZeroDivisionError", "ArithmeticError", "Exception"]
    (some "division by zero") none none false
    (some ⟨[⟨"example_usage.py", 17, "divide_numbers",
      some "return a / b"⟩]⟩)

/-- The wrapped `divide` target: any call raises `divideExc`. -/
def divideTarget : Target :=
  ⟨some ["a", "b"], fun _ _ => .error divideExc⟩

/-- The default decorator configuration (no ignore/propagate sets, no
custom context, `capture_code_context=True`, `error_level="DEBUG"`,
`capture_locals=False`, `max_stack_depth=10`). -/
def defaultCfg : HandlerCfg :=
  ⟨[], [], [], true, "DEBUG", false, 10, []⟩

/-- Wrap-time metadata of the divide function. -/
def divideDec : DecoratedInfo :=
  ⟨"divide_numbers", "__main__", "example_usage.py", 15⟩

/-- A plain interpreter environment: no recoverable `event`, no caller
info, unreadable files, a fixed timestamp. -/
def plainEnv : HandlerEnv :=
  ⟨none, none, fun _ => FileRead.ioErr, "ts"⟩

/-- C3 (evaluation at the failing input): wrapping `divide` and calling it
with `(10, 0)` under the default configuration returns the sentinel
`"ZeroDivisionError"` and the sink receives exactly one report whose
`error.type` is `"ZeroDivisionError"` and whose `error.message` indicates
division by zero — but the report's `stack_trace` is empty, contradicting
the claim that the walker yields one FrameRecord per visited frame and a
non-empty stackTrace: the walk loop of lines 386-442 starts from the
traceback *object* `exc_info()[2]`, whose first frame-attribute access
`frame.f_code` raises `AttributeError` and breaks the loop before any
frame record is built. -/
theorem C3_stack_walker_eval :
    (wrapperCall divideTarget defaultCfg divideDec plainEnv
        [⟨some "10"⟩, ⟨some "0"⟩] []).ret =
      .ok (.sentinel "ZeroDivisionError") ∧
    (wrapperCall divideTarget defaultCfg divideDec plainEnv
        [⟨some "10"⟩, ⟨some "0"⟩] []).sinkReports.length = 1 ∧
    (errRecOf ((wrapperCall divideTarget defaultCfg divideDec plainEnv
        [⟨some "10"⟩, ⟨some "0"⟩] []).sinkReports.headD [])).map
      ErrorRecord.type = some "ZeroDivisionError" ∧
    (errRecOf ((wrapperCall divideTarget defaultCfg divideDec plainEnv
        [⟨some "10"⟩, ⟨some "0"⟩] []).sinkReports.headD [])).map
      ErrorRecord.message = some "division by zero" ∧
    lookupD ((wrapperCall divideTarget defaultCfg divideDec plainEnv
        [⟨some "10"⟩, ⟨some "0"⟩] []).sinkReports.headD [])
      "stack_trace" = some (RVal.stackTr []) := by
  refine ⟨rfl, rfl, rfl, rfl, rfl⟩

/-! ## Unfolding lemmas for the wrapper and the handler -/

theorem lookupD_eq (d : Dict) (k : String) :
    lookupD d k = List.lookup k d := rfl

theorem wrapperCall_error (t : Target) (cfg : HandlerCfg)
    (dec : DecoratedInfo) (env : HandlerEnv) (args : List Value)
    (kwargs : List (String × Value)) (e : Exc)
    (hrun : t.run args (filterArguments t.params kwargs) = .error e) :
    wrapperCall t cfg dec env args kwargs =
      ⟨Except.map CallResult.sentinel
          (handleException cfg dec env e args kwargs).ret,
        (handleException cfg dec env e args kwargs).sinkReports⟩ := by
  unfold wrapperCall
  rw [hrun]

theorem wrapperCall_ok (t : Target) (cfg : HandlerCfg)
    (dec : DecoratedInfo) (env : HandlerEnv) (args : List Value)
    (kwargs : List (String × Value)) (v : Value)
    (hrun : t.run args (filterArguments t.params kwargs) = .ok v) :
    wrapperCall t cfg dec env args kwargs = ⟨.ok (.val v), []⟩ := by
  unfold wrapperCall
  rw [hrun]

theorem handleException_ignore (cfg : HandlerCfg) (dec : DecoratedInfo)
    (env : HandlerEnv) (e : Exc) (args : List Value)
    (kwargs : List (String × Value))
    (hig : cfg.ignoreErrors.any (fun c => isInstanceOf e c) = true) :
    handleException cfg dec env e args kwargs = ⟨.ok e.kindName, []⟩ := by
  unfold handleException
  rw [if_pos hig]

theorem handleException_propagate (cfg : HandlerCfg) (dec : DecoratedInfo)
    (env : HandlerEnv) (e : Exc) (args : List Value)
    (kwargs : List (String × Value))
    (hig : cfg.ignoreErrors.any (fun c => isInstanceOf e c) = false)
    (hpr : cfg.propagateErrors.any (fun c => isInstanceOf e c) = true) :
    handleException cfg dec env e args kwargs = ⟨.error e, []⟩ := by
  unfold handleException
  rw [if_neg (by rw [hig]; exact Bool.false_ne_true), if_pos hpr]

theorem handleException_captured (cfg : HandlerCfg) (dec : DecoratedInfo)
    (env : HandlerEnv) (e : Exc) (args : List Value)
    (kwargs : List (String × Value))
    (hig : cfg.ignoreErrors.any (fun c => isInstanceOf e c) = false)
    (hpr : cfg.propagateErrors.any (fun c => isInstanceOf e c) = false) :
    handleException cfg dec env e args kwargs =
      match collectErrorInfo e cfg.captureCodeContext cfg.errorLevel
        cfg.captureLocals cfg.maxStackDepth e.tb env.fs env.timestamp with
      | .error _ => ⟨.ok e.kindName, []⟩
      | .ok info =>
        ⟨.ok e.kindName,
          [dictUpdate info (buildContext cfg dec env args kwargs)]⟩ := by
  unfold handleException
  rw [if_neg (by rw [hig]; exact Bool.false_ne_true),
    if_neg (by rw [hpr]; exact Bool.false_ne_true)]

/-! ## Claim C2 -/

/-- C2: classification applies the ignore-set before the propagate-set,
with `isinstance` (kind-or-ancestor) matching: an ignore-matched fault
yields the fault-kind name with no report and no sink invocation even if it
also matches the propagate-set; otherwise a propagate-matched fault is
re-raised unchanged with no sink invocation; otherwise processing proceeds
to report assembly and dispatch. -/
theorem C2_classification (t : Target) (cfg : HandlerCfg)
    (dec : DecoratedInfo) (env : HandlerEnv) (args : List Value)
    (kwargs : List (String × Value)) (e : Exc)
    (hrun : t.run args (filterArguments t.params kwargs) = .error e) :
    (cfg.ignoreErrors.any (fun c => isInstanceOf e c) = true →
      (wrapperCall t cfg dec env args kwargs).ret =
        .ok (.sentinel e.kindName) ∧
      (wrapperCall t cfg dec env args kwargs).sinkReports = []) ∧
    (cfg.ignoreErrors.any (fun c => isInstanceOf e c) = false →
      cfg.propagateErrors.any (fun c => isInstanceOf e c) = true →
      (wrapperCall t cfg dec env args kwargs).ret = .error e ∧
      (wrapperCall t cfg dec env args kwargs).sinkReports = []) ∧
    (cfg.ignoreErrors.any (fun c => isInstanceOf e c) = false →
      cfg.propagateErrors.any (fun c => isInstanceOf e c) = false →
      (wrapperCall t cfg dec env args kwargs).ret =
        .ok (.sentinel e.kindName) ∧
      ∀ info, collectErrorInfo e cfg.captureCodeContext cfg.errorLevel
          cfg.captureLocals cfg.maxStackDepth e.tb env.fs env.timestamp =
          .ok info →
        (wrapperCall t cfg dec env args kwargs).sinkReports =
          [dictUpdate info (buildContext cfg dec env args kwargs)]) := by
  rw [wrapperCall_error t cfg dec env args kwargs e hrun]
  refine ⟨?_, ?_, ?_⟩
  · intro hig
    rw [handleException_ignore cfg dec env e args kwargs hig]
    exact ⟨rfl, rfl⟩
  · intro hig hpr
    rw [handleException_propagate cfg dec env e args kwargs hig hpr]
    exact ⟨rfl, rfl⟩
  · intro hig hpr
    rw [handleException_captured cfg dec env e args kwargs hig hpr]
    cases hco : collectErrorInfo e cfg.captureCodeContext cfg.errorLevel
        cfg.captureLocals cfg.maxStackDepth e.tb env.fs env.timestamp with
    | error u =>
      refine ⟨rfl, ?_⟩
      intro info hinfo
      simp at hinfo
    | ok info0 =>
      refine ⟨rfl, ?_⟩
      intro info hinfo
      have hi : info0 = info := by simpa using hinfo
      subst hi
      rfl

/-- A `ValueError` with ancestor `Exception`, thrown by a parameterless
target. -/
def veExc : Exc :=
  Exc.mk "ValueError" ["ValueError", "Exception"] (some "v") none none
    false none

/-- A target whose every call raises `veExc`. -/
def veTarget : Target := ⟨some [], fun _ _ => .error veExc⟩

/-- Configuration `ignore_errors=[Exception], propagate_errors=[ValueError]`: the fault
matches the ignore-set only through an ancestor kind, and matches the
propagate-set exactly. -/
def igCfg : HandlerCfg :=
  ⟨["Exception"], ["ValueError"], [], true, "DEBUG", false, 10, []⟩

/-- Witness for C2: the ancestor-matched ignore-set wins over the
exactly-matched propagate-set. -/
theorem C2_witness :
    veTarget.run [] (filterArguments veTarget.params []) = .error veExc ∧
    igCfg.ignoreErrors.any (fun c => isInstanceOf veExc c) = true ∧
    igCfg.propagateErrors.any (fun c => isInstanceOf veExc c) = true ∧
    (wrapperCall veTarget igCfg divideDec plainEnv [] []).ret =
      .ok (.sentinel "ValueError") ∧
    (wrapperCall veTarget igCfg divideDec plainEnv [] []).sinkReports =
      [] := by
  have h :=
    (C2_classification veTarget igCfg divideDec plainEnv [] [] veExc rfl).1
      (by decide)
  exact ⟨rfl, by decide, by decide, h.1, h.2⟩

/-! ## Claim C1 -/

/-- C1 (counterexample to the claim as stated): calling the wrapped
`divide` with a keyword argument named `error` on a captured
`ZeroDivisionError`: the wrapped call returns the sentinel and the sink is
invoked exactly once, but the delivered report's `error` entry is the
context's string summary `"boom"` (the merge
`error_info.update(context_info)` overrides the error record), so the
report has no `error.type` equal to the fault-kind name. -/
theorem C1_counterexample :
    (wrapperCall divideTarget defaultCfg divideDec plainEnv []
        [("error", ⟨some "boom"⟩)]).ret =
      .ok (.sentinel "ZeroDivisionError") ∧
    (wrapperCall divideTarget defaultCfg divideDec plainEnv []
        [("error", ⟨some "boom"⟩)]).sinkReports.length = 1 ∧
    lookupD ((wrapperCall divideTarget defaultCfg divideDec plainEnv []
        [("error", ⟨some "boom"⟩)]).sinkReports.headD []) "error" =
      some (RVal.s "boom") ∧
    errRecOf ((wrapperCall divideTarget defaultCfg divideDec plainEnv []
        [("error", ⟨some "boom"⟩)]).sinkReports.headD []) = none := by
  refine ⟨rfl, rfl, rfl, rfl⟩

/-- C1 (amended): for a fault matching neither classification set, the
wrapped call never raises and returns the fault-kind name — even when
collection fails internally — and the sink is invoked at most once; when
collection succeeds and no context key overrides the report's `error`
field, the sink is invoked exactly once with a report whose `error.type`
equals the fault-kind name. -/
theorem C1_captured_fault (t : Target) (cfg : HandlerCfg)
    (dec : DecoratedInfo) (env : HandlerEnv) (args : List Value)
    (kwargs : List (String × Value)) (e : Exc)
    (hrun : t.run args (filterArguments t.params kwargs) = .error e)
    (hig : cfg.ignoreErrors.any (fun c => isInstanceOf e c) = false)
    (hpr : cfg.propagateErrors.any (fun c => isInstanceOf e c) = false) :
    (wrapperCall t cfg dec env args kwargs).ret =
      .ok (.sentinel e.kindName) ∧
    (wrapperCall t cfg dec env args kwargs).sinkReports.length ≤ 1 ∧
    ∀ info, collectErrorInfo e cfg.captureCodeContext cfg.errorLevel
        cfg.captureLocals cfg.maxStackDepth e.tb env.fs env.timestamp =
        .ok info →
      lookupLast (buildContext cfg dec env args kwargs) "error" = none →
      (wrapperCall t cfg dec env args kwargs).sinkReports =
        [dictUpdate info (buildContext cfg dec env args kwargs)] ∧
      (errRecOf (dictUpdate info
          (buildContext cfg dec env args kwargs))).map ErrorRecord.type =
        some e.kindName := by
  rw [wrapperCall_error t cfg dec env args kwargs e hrun]
  rw [handleException_captured cfg dec env e args kwargs hig hpr]
  cases hco : collectErrorInfo e cfg.captureCodeContext cfg.errorLevel
      cfg.captureLocals cfg.maxStackDepth e.tb env.fs env.timestamp with
  | error u =>
    refine ⟨rfl, by simp, ?_⟩
    intro info hinfo
    simp at hinfo
  | ok info0 =>
    refine ⟨rfl, by simp, ?_⟩
    intro info hinfo hctx
    have hi : info0 = info := by simpa using hinfo
    subst hi
    refine ⟨rfl, ?_⟩
    obtain ⟨codeCtx, chain, fullTb, msg, hcc, hch, hf, hm, hieq⟩ :=
      collectErrorInfo_ok_iff.mp hco
    subst hieq
    unfold errRecOf
    rw [lookupD_eq,
      lookup_dictUpdate_none (buildContext cfg dec env args kwargs) _
        "error" hctx,
      ← lookupD_eq, assembleInfo_error]
    rfl

/-- The `extract_tb` entries of the divide scenario's traceback. -/
def divideTbL : List TbEntry :=
  [⟨"example_usage.py", 17, "divide_numbers", some "return a / b"⟩]

/-- The collected report of the divide scenario (files unreadable, so the
code context falls back to the single known error line; the stack walk
yields nothing). -/
def divideInfo : Dict :=
  assembleInfo divideExc true "DEBUG" false 10 divideTbL
    [⟨17, "return a / b", true⟩] []
    [⟨"ZeroDivisionError", "division by zero", 0, true, none,
      some ["ZeroDivisionError: division by zero"]⟩]
    ["ZeroDivisionError: division by zero"] "division by zero" "ts"

/-- Witness for the amended C1 at the divide scenario with no colliding
context key. -/
theorem C1_witness :
    divideTarget.run [] (filterArguments divideTarget.params []) =
      .error divideExc ∧
    (defaultCfg.ignoreErrors.any (fun c => isInstanceOf divideExc c) =
      false) ∧
    (defaultCfg.propagateErrors.any (fun c => isInstanceOf divideExc c) =
      false) ∧
    (wrapperCall divideTarget defaultCfg divideDec plainEnv [] []).ret =
      .ok (.sentinel "ZeroDivisionError") ∧
    (wrapperCall divideTarget defaultCfg divideDec plainEnv []
      []).sinkReports.length ≤ 1 ∧
    (wrapperCall divideTarget defaultCfg divideDec plainEnv []
        []).sinkReports =
      [dictUpdate divideInfo
        (buildContext defaultCfg divideDec plainEnv [] [])] ∧
    (errRecOf (dictUpdate divideInfo
        (buildContext defaultCfg divideDec plainEnv [] []))).map
      ErrorRecord.type = some "ZeroDivisionError" := by
  have h := C1_captured_fault divideTarget defaultCfg divideDec plainEnv
    [] [] divideExc rfl rfl rfl
  have h3 := h.2.2 divideInfo rfl (by decide)
  exact ⟨rfl, rfl, rfl, h.1, h.2.1, h3.1, h3.2⟩

/-! ## Claim C6 -/

theorem chainLoop_succ_cases (fuel : Nat) (e : Exc) (idx : Nat)
    (l : List ChainLink) (h : chainLoop (fuel + 1) e idx = .ok l) :
    ∃ msg, strE e = .ok msg ∧
      ((∃ nxt rest, e.cause = some nxt ∧
          chainLoop fuel nxt (idx + 1) = .ok rest ∧
          l = ⟨e.kindName, msg, idx, idx == 0, some "caused_by",
            chainTbField e⟩ :: rest) ∨
        (∃ nxt rest, e.cause = none ∧ e.context = some nxt ∧
          e.suppressContext = false ∧
          chainLoop fuel nxt (idx + 1) = .ok rest ∧
          l = ⟨e.kindName, msg, idx, idx == 0, some "context_for",
            chainTbField e⟩ :: rest) ∨
        (e.cause = none ∧ (e.context = none ∨ e.suppressContext = true) ∧
          l = [⟨e.kindName, msg, idx, idx == 0, none,
            chainTbField e⟩])) := by
  unfold chainLoop at h
  split at h
  · simp at h
  next msg hs =>
    split at h
    next nxt hc =>
      split at h
      · simp at h
      next rest hr =>
        rw [Except.ok.injEq] at h
        exact ⟨msg, hs, Or.inl ⟨nxt, rest, hc, hr, h.symm⟩⟩
    next hc =>
      split at h
      next nxt hx hsup =>
        split at h
        · simp at h
        next rest hr =>
          rw [Except.ok.injEq] at h
          exact ⟨msg, hs,
            Or.inr (Or.inl ⟨nxt, rest, hc, hx, hsup, hr, h.symm⟩)⟩
      next hdef =>
        rw [Except.ok.injEq] at h
        refine ⟨msg, hs, Or.inr (Or.inr ⟨hc, ?_, h.symm⟩)⟩
        cases hctx : e.context with
        | none => exact Or.inl rfl
        | some c =>
          cases hsup : e.suppressContext with
          | true => exact Or.inr rfl
          | false => exact (hdef c hctx hsup).elim

/-- A causal chain of explicit causes: `deepExc n` has `n + 1` exception
values linked by `__cause__`. -/
def deepExc : Nat → Exc
  | 0 => Exc.mk "E" ["E", "Exception"] (some "m") none none false none
  | n + 1 =>
    Exc.mk "E" ["E", "Exception"] (some "m") (some (deepExc n)) none false
      none

/-- C6 (counterexample to the claim as stated): on an 11-deep explicit
cause chain the traversal is cut by the 10-link cap *after* the relation
was recorded on the 10th emitted link (lines 473-475 set the relation
before the `chain_index < 10` guard is re-checked), so the last link
visited carries `relation = "caused_by"` — the claim's "the relation field
is absent on the last link visited" is false here. -/
theorem C6_counterexample :
    (collectChain (deepExc 10)).toOption.map
        (fun l => (l.length, l.getLast?.map ChainLink.relation)) =
      some (10, some (some "caused_by")) := by
  rfl

/-- C6 (amended): the chain walker starts at the thrown fault (index 0,
`is_original` true), follows an explicit cause in preference to the
implicit context link (the latter only when not suppressed), stops
otherwise, and caps the chain at 10 links; the relation recorded on link
`i` names the link type followed to reach link `i + 1` and is absent on
the last link visited — except when the 10-link cap cuts the traversal,
in which case the last emitted link keeps the relation to the never-emitted
next fault.  A fault with an explicit cause chain of depth 2 yields a chain
of length 2 with `caused_by` on the first link only. -/
theorem C6_chain_walker :
    (∀ (k1 k2 m1 m2 : String) (mro1 mro2 : List String)
        (ctxe : Option Exc) (sup : Bool),
      collectChain (Exc.mk k1 mro1 (some m1)
          (some (Exc.mk k2 mro2 (some m2) none none false none))
          ctxe sup none) =
        .ok [⟨k1, m1, 0, true, some "caused_by", none⟩,
          ⟨k2, m2, 1, false, none, none⟩]) ∧
    (∀ (e : Exc) (l : List ChainLink), collectChain e = .ok l →
      (∃ l0 rest, l = l0 :: rest ∧ l0.type = e.kindName ∧ l0.index = 0 ∧
        l0.isOriginal = true) ∧ l.length ≤ 10) ∧
    (∀ (e : Exc) (l : List ChainLink) (c : Exc), collectChain e = .ok l →
      e.cause = some c →
      ∃ l0 rest, l = l0 :: rest ∧ l0.relation = some "caused_by") ∧
    (∀ (e : Exc) (l : List ChainLink) (c : Exc), collectChain e = .ok l →
      e.cause = none → e.context = some c → e.suppressContext = false →
      ∃ l0 rest, l = l0 :: rest ∧ l0.relation = some "context_for") ∧
    (∀ (e : Exc) (l : List ChainLink), collectChain e = .ok l →
      e.cause = none → (e.context = none ∨ e.suppressContext = true) →
      ∃ l0, l = [l0] ∧ l0.relation = none) := by
  refine ⟨?_, ?_, ?_, ?_, ?_⟩
  · intro k1 k2 m1 m2 mro1 mro2 ctxe sup
    rfl
  · intro e l h
    have h' : chainLoop (9 + 1) e 0 = .ok l := h
    obtain ⟨msg, hs, hcase⟩ := chainLoop_succ_cases 9 e 0 l h'
    constructor
    · rcases hcase with ⟨nxt, rest, _, _, hl⟩ | ⟨nxt, rest, _, _, _, _, hl⟩ |
        ⟨_, _, hl⟩
      · exact ⟨_, rest, hl, rfl, rfl, rfl⟩
      · exact ⟨_, rest, hl, rfl, rfl, rfl⟩
      · exact ⟨_, [], hl, rfl, rfl, rfl⟩
    · exact chainLoop_length 10 e 0 l h
  · intro e l c h hc
    have h' : chainLoop (9 + 1) e 0 = .ok l := h
    obtain ⟨msg, hs, hcase⟩ := chainLoop_succ_cases 9 e 0 l h'
    rcases hcase with ⟨nxt, rest, _, _, hl⟩ | ⟨nxt, rest, hc0, _, _, _, hl⟩ |
      ⟨hc0, _, hl⟩
    · exact ⟨_, rest, hl, rfl⟩
    · rw [hc] at hc0; cases hc0
    · rw [hc] at hc0; cases hc0
  · intro e l c h hc hx hsup
    have h' : chainLoop (9 + 1) e 0 = .ok l := h
    obtain ⟨msg, hs, hcase⟩ := chainLoop_succ_cases 9 e 0 l h'
    rcases hcase with ⟨nxt, rest, hc0, _, hl⟩ |
      ⟨nxt, rest, _, _, _, _, hl⟩ | ⟨_, hor, hl⟩
    · rw [hc] at hc0; cases hc0
    · exact ⟨_, rest, hl, rfl⟩
    · rcases hor with hx0 | hsup0
      · rw [hx] at hx0; cases hx0
      · rw [hsup] at hsup0; cases hsup0
  · intro e l h hc hor
    have h' : chainLoop (9 + 1) e 0 = .ok l := h
    obtain ⟨msg, hs, hcase⟩ := chainLoop_succ_cases 9 e 0 l h'
    rcases hcase with ⟨nxt, rest, hc0, _, hl⟩ |
      ⟨nxt, rest, _, hx0, hsup0, _, hl⟩ | ⟨_, _, hl⟩
    · rw [hc] at hc0; cases hc0
    · rcases hor with hx | hsup
      · rw [hx] at hx0; cases hx0
      · rw [hsup] at hsup0; cases hsup0
    · exact ⟨_, hl, rfl⟩

/-- A fault with an explicit cause of depth 2 for the witness. -/
def causeExc : Exc :=
  Exc.mk "RuntimeError" ["RuntimeError", "Exception"] (some "outer")
    (some (Exc.mk "KeyError" ["KeyError", "LookupError", "Exception"]
      (some "inner") none none false none))
    none false none

/-- Witness for C6: the depth-2 scenario and the general clauses at
`causeExc`. -/
theorem C6_witness :
    collectChain causeExc =
      .ok [⟨"RuntimeError", "outer", 0, true, some "caused_by", none⟩,
        ⟨"KeyError", "inner", 1, false, none, none⟩] ∧
    (∃ l0 rest,
      [⟨"RuntimeError", "outer", 0, true, some "caused_by", none⟩,
        ⟨"KeyError", "inner", 1, false, none, none⟩] = l0 :: rest ∧
      ChainLink.type l0 = causeExc.kindName ∧ ChainLink.index l0 = 0 ∧
      ChainLink.isOriginal l0 = true) := by
  constructor
  · exact C6_chain_walker.1 "RuntimeError" "KeyError" "outer" "inner"
      ["RuntimeError", "Exception"]
      ["KeyError", "LookupError", "Exception"] none false
  · exact ((C6_chain_walker.2.1 causeExc _
      (C6_chain_walker.1 "RuntimeError" "KeyError" "outer" "inner"
        ["RuntimeError", "Exception"]
        ["KeyError", "LookupError", "Exception"] none false)).1)

/-! ## Claim C7 -/

/-- C7 (counterexample to the claim as stated): when the bytes of the
source file cannot be decoded, the window computation raises instead of
producing a fallback window — the `try` of lines 364-382 catches only
`IOError`/`OSError`, not `UnicodeDecodeError`. -/
theorem C7_counterexample :
    codeContextPart true [⟨"f.py", 5, "g", some "line text"⟩]
        (fun _ => FileRead.decodeErr) = .error () := rfl

/-- C7 (amended): for a readable file the window spans exactly the lines
`targetLine − 10 … targetLine + 10` clipped to the file (at most 21
entries), each entry carrying its 1-based line number, its stripped code
text, and an `is_error_line` flag true exactly on the target line; when
opening the file fails with an I/O error, a single-entry window holding the
previously known text of the target line (or the empty string) marked as
the error line is produced; a decode failure while reading, however,
raises out of the window computation. -/
theorem C7_source_window :
    (∀ (lines : List String) (n : Nat),
      (mkWindow lines n).length ≤ 21 ∧
      (∀ en ∈ mkWindow lines n,
        (en.isErrorLine = true ↔ en.lineNo = n) ∧
        1 ≤ en.lineNo ∧ n - 10 ≤ en.lineNo ∧ en.lineNo ≤ n + 10 ∧
        en.lineNo ≤ lines.length ∧
        en.code = rstrip (lines.getD (en.lineNo - 1) "")) ∧
      (∀ j, max 1 (n - 10) ≤ j → j ≤ min lines.length (n + 10) →
        ∃ en ∈ mkWindow lines n, en.lineNo = j)) ∧
    (∀ (tbL : List TbEntry) (fs : String → FileRead) (last : TbEntry),
      tbL.getLast? = some last →
      (∀ lines, fs last.filename = .ok lines →
        codeContextPart true tbL fs = .ok (mkWindow lines last.lineno)) ∧
      (fs last.filename = .ioErr →
        codeContextPart true tbL fs =
          .ok [⟨last.lineno, last.line.getD "", true⟩]) ∧
      (fs last.filename = .decodeErr →
        codeContextPart true tbL fs = .error ())) := by
  constructor
  · intro lines n
    refine ⟨?_, ?_, ?_⟩
    · unfold mkWindow
      rw [List.length_map, List.length_range']
      omega
    · intro en hen
      unfold mkWindow at hen
      rw [List.mem_map] at hen
      obtain ⟨i, hi, rfl⟩ := hen
      rw [List.mem_range'_1] at hi
      have hmin : n - 11 ≤ i ∧
          i < (n - 11) + (min lines.length (n + 10) - (n - 11)) := hi
      refine ⟨?_, ?_, ?_, ?_, ?_, ?_⟩
      · show ((i + 1 == n) = true) ↔ (i + 1 = n)
        exact beq_iff_eq
      · show 1 ≤ i + 1
        omega
      · show n - 10 ≤ i + 1
        omega
      · show i + 1 ≤ n + 10
        omega
      · show i + 1 ≤ lines.length
        omega
      · show rstrip (lines.getD i "") = rstrip (lines.getD (i + 1 - 1) "")
        rw [Nat.add_sub_cancel]
    · intro j hj1 hj2
      refine ⟨⟨j, rstrip (lines.getD (j - 1) ""), j == n⟩, ?_, rfl⟩
      unfold mkWindow
      rw [List.mem_map]
      refine ⟨j - 1, ?_, ?_⟩
      · rw [List.mem_range'_1]
        omega
      · have hj : j - 1 + 1 = j := by omega
        rw [hj]
  · intro tbL fs last hlast
    refine ⟨?_, ?_, ?_⟩
    · intro lines hfs
      unfold codeContextPart
      rw [if_pos rfl, hlast]
      show (match fs last.filename with
        | FileRead.ok lines => Except.ok (mkWindow lines last.lineno)
        | FileRead.ioErr =>
          Except.ok [⟨last.lineno, last.line.getD "", true⟩]
        | FileRead.decodeErr => Except.error ()) = _
      rw [hfs]
    · intro hfs
      unfold codeContextPart
      rw [if_pos rfl, hlast]
      show (match fs last.filename with
        | FileRead.ok lines => Except.ok (mkWindow lines last.lineno)
        | FileRead.ioErr =>
          Except.ok [⟨last.lineno, last.line.getD "", true⟩]
        | FileRead.decodeErr => Except.error ()) = _
      rw [hfs]
    · intro hfs
      unfold codeContextPart
      rw [if_pos rfl, hlast]
      show (match fs last.filename with
        | FileRead.ok lines => Except.ok (mkWindow lines last.lineno)
        | FileRead.ioErr =>
          Except.ok [⟨last.lineno, last.line.getD "", true⟩]
        | FileRead.decodeErr => Except.error ()) = _
      rw [hfs]

/-- Witness for C7 at a three-line file with target line 2. -/
theorem C7_witness :
    ([⟨"w.py", 2, "f", some "b"⟩] : List TbEntry).getLast? =
      some ⟨"w.py", 2, "f", some "b"⟩ ∧
    codeContextPart true [⟨"w.py", 2, "f", some "b"⟩]
        (fun _ => FileRead.ok ["a", "b", "c"]) =
      .ok (mkWindow ["a", "b", "c"] 2) ∧
    (mkWindow ["a", "b", "c"] 2).length ≤ 21 ∧
    (∃ en ∈ mkWindow ["a", "b", "c"] 2, en.lineNo = 1) ∧
    codeContextPart true [⟨"w.py", 2, "f", some "b"⟩]
        (fun _ => FileRead.ioErr) = .ok [⟨2, "b", true⟩] := by
  refine ⟨rfl, ?_, ?_, ?_, ?_⟩
  · exact (C7_source_window.2 [⟨"w.py", 2, "f", some "b"⟩]
      (fun _ => FileRead.ok ["a", "b", "c"]) ⟨"w.py", 2, "f", some "b"⟩
      rfl).1 ["a", "b", "c"] rfl
  · exact (C7_source_window.1 ["a", "b", "c"] 2).1
  · exact (C7_source_window.1 ["a", "b", "c"] 2).2.2 1 (by decide)
      (by decide)
  · exact (C7_source_window.2 [⟨"w.py", 2, "f", some "b"⟩]
      (fun _ => FileRead.ioErr) ⟨"w.py", 2, "f", some "b"⟩ rfl).2.1 rfl

/-! ## Claim C8 -/

/-- The fault a target raises when handed an unexpected keyword. -/
def kwExc : Exc :=
  Exc.mk "TypeError" ["TypeError", "Exception"] (some "unexpected keyword")
    none none false none

/-- A target with declared parameter `a` only: it raises `kwExc` when an
`event` keyword reaches it, and succeeds otherwise. -/
def kwTarget : Target :=
  ⟨some ["a"], fun _ kw =>
    if (List.lookup "event" kw).isSome then .error kwExc
    else .ok ⟨some "ok"⟩⟩

/-- C8 (counterexample to the claim as stated): calling the wrapped target
with the reserved keyword `event`, which the target does not accept, is a
non-faulting call returning the target's value — but calling the unwrapped
target with the same arguments raises, so the results are not identical:
the wrapper silently filters the reserved keyword away. -/
theorem C8_counterexample :
    (wrapperCall kwTarget defaultCfg divideDec plainEnv []
        [("event", ⟨some "ev"⟩)]).ret = .ok (.val ⟨some "ok"⟩) ∧
    kwTarget.run [] [("event", ⟨some "ev"⟩)] = .error kwExc ∧
    (wrapperCall kwTarget defaultCfg divideDec plainEnv []
        [("event", ⟨some "ev"⟩)]).ret ≠
      Except.map CallResult.val (kwTarget.run [] [("event", ⟨some "ev"⟩)]) := by
  refine ⟨rfl, rfl, ?_⟩
  intro hcon
  exact Except.noConfusion hcon

/-- C8 (amended): a call through the wrapper that reaches the target and
succeeds returns the target's result on the *filtered* keyword arguments,
with no sink invocation; the filtering is the identity — and the wrapped
result therefore identical to the direct call with the same arguments —
whenever every reserved-named keyword passed is among the target's declared
parameters (or, when signature introspection is unavailable, no reserved
keyword is passed at all). -/
theorem C8_transparency (t : Target) (cfg : HandlerCfg)
    (dec : DecoratedInfo) (env : HandlerEnv) (args : List Value)
    (kwargs : List (String × Value)) :
    (∀ v, t.run args (filterArguments t.params kwargs) = .ok v →
      (wrapperCall t cfg dec env args kwargs).ret = .ok (.val v) ∧
      (wrapperCall t cfg dec env args kwargs).sinkReports = []) ∧
    (∀ ps, t.params = some ps →
      (∀ p ∈ kwargs, contextKeys.contains p.1 = true →
        ps.contains p.1 = true) →
      filterArguments t.params kwargs = kwargs) ∧
    (t.params = none →
      (∀ p ∈ kwargs, contextKeys.contains p.1 = false) →
      filterArguments t.params kwargs = kwargs) ∧
    (∀ ps, t.params = some ps →
      (∀ p ∈ kwargs, contextKeys.contains p.1 = true →
        ps.contains p.1 = true) →
      ∀ v, t.run args kwargs = .ok v →
        (wrapperCall t cfg dec env args kwargs).ret = .ok (.val v)) := by
  have hfilter : ∀ ps, t.params = some ps →
      (∀ p ∈ kwargs, contextKeys.contains p.1 = true →
        ps.contains p.1 = true) →
      filterArguments t.params kwargs = kwargs := by
    intro ps hps hacc
    rw [hps]
    unfold filterArguments
    rw [List.filter_eq_self]
    intro p hp
    cases hck : contextKeys.contains p.1 with
    | true =>
      rw [hacc p hp hck]
      rfl
    | false =>
      simp
  refine ⟨?_, hfilter, ?_, ?_⟩
  · intro v hv
    rw [wrapperCall_ok t cfg dec env args kwargs v hv]
    exact ⟨rfl, rfl⟩
  · intro hps hacc
    rw [hps]
    unfold filterArguments
    rw [List.filter_eq_self]
    intro p hp
    rw [hacc p hp]
    rfl
  · intro ps hps hacc v hv
    have hf := hfilter ps hps hacc
    have hrun : t.run args (filterArguments t.params kwargs) = .ok v := by
      rw [hf]
      exact hv
    rw [wrapperCall_ok t cfg dec env args kwargs v hrun]

/-- A target that declares and uses the reserved keyword `event`. -/
def acceptTarget : Target :=
  ⟨some ["a", "event"], fun _ kw =>
    .ok ⟨some ((List.lookup "event" kw).elim "none"
      (fun v => v.str.getD ""))⟩⟩

/-- Witness for the amended C8: a reserved keyword that the target accepts
passes through unfiltered and the wrapped result equals the direct call. -/
theorem C8_witness :
    acceptTarget.params = some ["a", "event"] ∧
    (∀ p ∈ [("event", (⟨some "E"⟩ : Value))],
      contextKeys.contains p.1 = true →
        (["a", "event"] : List String).contains p.1 = true) ∧
    acceptTarget.run [] [("event", ⟨some "E"⟩)] = .ok ⟨some "E"⟩ ∧
    filterArguments acceptTarget.params [("event", ⟨some "E"⟩)] =
      [("event", ⟨some "E"⟩)] ∧
    (wrapperCall acceptTarget defaultCfg divideDec plainEnv []
        [("event", ⟨some "E"⟩)]).ret = .ok (.val ⟨some "E"⟩) := by
  refine ⟨rfl, by decide, rfl, ?_, ?_⟩
  · exact (C8_transparency acceptTarget defaultCfg divideDec plainEnv []
      [("event", ⟨some "E"⟩)]).2.1 ["a", "event"] rfl (by decide)
  · exact (C8_transparency acceptTarget defaultCfg divideDec plainEnv []
      [("event", ⟨some "E"⟩)]).2.2.2 ["a", "event"] rfl (by decide)
      ⟨some "E"⟩ rfl

/-! ## Claim C9 -/

theorem nodupKeys_foldl_dictSet {α β : Type} (key : β → String)
    (val : β → α) :
    ∀ (l : List β) (d : List (String × α)), nodupKeys d →
      nodupKeys (l.foldl (fun acc b => dictSet acc (key b) (val b)) d) := by
  intro l
  induction l with
  | nil => intro d h; exact h
  | cons b t ih => intro d h; exact ih _ (nodupKeys_dictSet d (key b) (val b) h)

theorem nodupKeys_extractContextInfo (args : List Value)
    (kwargs : List (String × Value)) (ci : Option CallerInfo) :
    nodupKeys (extractContextInfo args kwargs ci) := by
  have h1 : nodupKeys (extractArgsPart args) := by
    unfold extractArgsPart
    exact nodupKeys_foldl_dictSet _ _ args.enum [] (by simp [nodupKeys])
  have h2 : nodupKeys (extractKwargsPart kwargs (extractArgsPart args)) := by
    unfold extractKwargsPart
    exact nodupKeys_foldl_dictSet _ _ kwargs _ h1
  unfold extractContextInfo
  cases ci with
  | none => exact h2
  | some c =>
    exact nodupKeys_dictSet _ _ _
      (nodupKeys_dictSet _ _ _ (nodupKeys_dictSet _ _ _ h2))

theorem nodupKeys_buildContext (cfg : HandlerCfg) (dec : DecoratedInfo)
    (env : HandlerEnv) (args : List Value)
    (kwargs : List (String × Value)) :
    nodupKeys (buildContext cfg dec env args kwargs) := by
  unfold buildContext
  exact nodupKeys_dictUpdate _ _
    (nodupKeys_dictUpdate _ _
      (nodupKeys_extractContextInfo args _ env.callerInfo))

/-- A custom-context configuration whose key collides with the report's
`error` field: the raw (non-summarised) value lands in the report. -/
def rawCfg : HandlerCfg :=
  ⟨[], [], [("error", ⟨some "x"⟩)], true, "DEBUG", false, 10, []⟩

/-- Does this report value hold a flat string summary? -/
def isStrVal : Option RVal → Bool
  | some (RVal.s _) => true
  | _ => false

/-- C9 (counterexample to the claim as stated): with
`custom_context={'error': v}` the report delivered to the sink carries the
*raw* custom value under `error`, not a string summary — custom-context
entries are assigned into the context without passing through the
summariser (line 140). -/
theorem C9_counterexample :
    (wrapperCall divideTarget rawCfg divideDec plainEnv []
        []).sinkReports.length = 1 ∧
    lookupD ((wrapperCall divideTarget rawCfg divideDec plainEnv []
        []).sinkReports.headD []) "error" = some (RVal.raw ⟨some "x"⟩) ∧
    isStrVal (lookupD ((wrapperCall divideTarget rawCfg divideDec plainEnv []
        []).sinkReports.headD []) "error") = false := by
  refine ⟨rfl, rfl, rfl⟩

/-- C9 (amended): the context mapping is merged into the report dictionary
after the structured fields are built, so any context key that equals a
top-level report field name replaces that structured field with the
context's value (a string summary for call keyword arguments, the raw
value for custom-context entries, the stringified metadata for
`decorated_function_*` keys); within the context, custom-context entries
override same-named call keyword arguments, and the
`decorated_function_*` entries are assigned last. -/
theorem C9_merge_order (cfg : HandlerCfg) (dec : DecoratedInfo)
    (env : HandlerEnv) (args : List Value) (kwargs : List (String × Value))
    (e : Exc)
    (hig : cfg.ignoreErrors.any (fun c => isInstanceOf e c) = false)
    (hpr : cfg.propagateErrors.any (fun c => isInstanceOf e c) = false)
    (info : Dict)
    (hinfo : collectErrorInfo e cfg.captureCodeContext cfg.errorLevel
      cfg.captureLocals cfg.maxStackDepth e.tb env.fs env.timestamp =
      .ok info) :
    (handleException cfg dec env e args kwargs).sinkReports =
      [dictUpdate info (buildContext cfg dec env args kwargs)] ∧
    (∀ k rv, lookupD (buildContext cfg dec env args kwargs) k = some rv →
      lookupD (dictUpdate info (buildContext cfg dec env args kwargs)) k =
        some rv) ∧
    (∀ (k : String) (v : Value),
      lookupLast (cfg.customContext.map (fun p => (p.1, RVal.raw p.2))) k =
        some (RVal.raw v) →
      k ≠ "decorated_function_name" → k ≠ "decorated_function_module" →
      k ≠ "decorated_function_filename" → k ≠ "decorated_function_lineno" →
      lookupD (buildContext cfg dec env args kwargs) k =
        some (RVal.raw v)) ∧
    lookupD (buildContext cfg dec env args kwargs)
      "decorated_function_name" = some (RVal.s dec.name) := by
  refine ⟨?_, ?_, ?_, ?_⟩
  · rw [handleException_captured cfg dec env e args kwargs hig hpr, hinfo]
  · intro k rv h
    rw [lookupD_eq] at h ⊢
    have hn := nodupKeys_buildContext cfg dec env args kwargs
    have hl : lookupLast (buildContext cfg dec env args kwargs) k =
        some rv := by
      rw [lookupLast_eq_lookup _ hn k]
      exact h
    exact lookup_dictUpdate_some _ info k rv hl
  · intro k v hcl h1 h2 h3 h4
    rw [lookupD_eq]
    unfold buildContext
    rw [show dictUpdate
        (dictUpdate (extractContextInfo args (contextKwargsOf cfg env kwargs)
          env.callerInfo)
          (cfg.customContext.map (fun p => (p.1, RVal.raw p.2))))
        (decoratedEntries dec) =
      dictSet (dictSet (dictSet (dictSet
        (dictUpdate (extractContextInfo args (contextKwargsOf cfg env kwargs)
          env.callerInfo)
          (cfg.customContext.map (fun p => (p.1, RVal.raw p.2))))
        "decorated_function_name" (RVal.s dec.name))
        "decorated_function_module" (RVal.s dec.module))
        "decorated_function_filename" (RVal.s dec.filename))
        "decorated_function_lineno" (RVal.s (toString dec.lineno)) from rfl]
    rw [lookup_dictSet_ne _ _ _ _ h4, lookup_dictSet_ne _ _ _ _ h3,
      lookup_dictSet_ne _ _ _ _ h2, lookup_dictSet_ne _ _ _ _ h1]
    exact lookup_dictUpdate_some _ _ k (RVal.raw v) hcl
  · rw [lookupD_eq]
    unfold buildContext
    rw [show dictUpdate
        (dictUpdate (extractContextInfo args (contextKwargsOf cfg env kwargs)
          env.callerInfo)
          (cfg.customContext.map (fun p => (p.1, RVal.raw p.2))))
        (decoratedEntries dec) =
      dictSet (dictSet (dictSet (dictSet
        (dictUpdate (extractContextInfo args (contextKwargsOf cfg env kwargs)
          env.callerInfo)
          (cfg.customContext.map (fun p => (p.1, RVal.raw p.2))))
        "decorated_function_name" (RVal.s dec.name))
        "decorated_function_module" (RVal.s dec.module))
        "decorated_function_filename" (RVal.s dec.filename))
        "decorated_function_lineno" (RVal.s (toString dec.lineno)) from rfl]
    rw [lookup_dictSet_ne _ _ _ _ (by decide),
      lookup_dictSet_ne _ _ _ _ (by decide),
      lookup_dictSet_ne _ _ _ _ (by decide)]
    exact lookup_dictSet_self _ _ _

/-- A configuration carrying one custom-context entry. -/
def noteCfg : HandlerCfg :=
  ⟨[], [], [("custom_note", ⟨some "x"⟩)], true, "DEBUG", false, 10, []⟩

/-- Witness for the amended C9 at the divide scenario with a custom
context entry. -/
theorem C9_witness :
    (noteCfg.ignoreErrors.any (fun c => isInstanceOf divideExc c) =
      false) ∧
    (noteCfg.propagateErrors.any (fun c => isInstanceOf divideExc c) =
      false) ∧
    collectErrorInfo divideExc noteCfg.captureCodeContext
        noteCfg.errorLevel noteCfg.captureLocals noteCfg.maxStackDepth
        divideExc.tb plainEnv.fs plainEnv.timestamp = .ok divideInfo ∧
    (handleException noteCfg divideDec plainEnv divideExc [] []).sinkReports =
      [dictUpdate divideInfo (buildContext noteCfg divideDec plainEnv [] [])] ∧
    lookupD (buildContext noteCfg divideDec plainEnv [] []) "custom_note" =
      some (RVal.raw ⟨some "x"⟩) ∧
    lookupD (dictUpdate divideInfo
        (buildContext noteCfg divideDec plainEnv [] [])) "custom_note" =
      some (RVal.raw ⟨some "x"⟩) ∧
    lookupD (buildContext noteCfg divideDec plainEnv [] [])
      "decorated_function_name" = some (RVal.s "divide_numbers") := by
  have h := C9_merge_order noteCfg divideDec plainEnv [] [] divideExc rfl
    rfl divideInfo rfl
  have h3 := h.2.2.1 "custom_note" ⟨some "x"⟩ rfl (by decide) (by decide)
    (by decide) (by decide)
  have h2 := h.2.1 "custom_note" (RVal.raw ⟨some "x"⟩) h3
  exact ⟨rfl, rfl, rfl, h.1, h3, h2, h.2.2.2⟩

/-! ## Claim C10 -/

/-- The fault `report_error` synthesizes: `error_type(error_reason)`, a
fresh exception with no cause, no context and no traceback whose `str` is
the reason. -/
def synthExc (kindName : String) (mro : List String) (reason : String) :
    Exc :=
  Exc.mk kindName mro (some reason) none none false none

/-- The report `_collect_error_info` produces for a synthesized fault when
no exception is being handled: no traceback entries, no code context, an
empty stack trace, a one-link chain. -/
def synthInfo (kindName : String) (mro : List String) (reason : String)
    (ccc : Bool) (lvl : String) (cl : Bool) (maxD : Nat) (ts : String) :
    Dict :=
  assembleInfo (synthExc kindName mro reason) ccc lvl cl maxD [] [] []
    [⟨kindName, reason, 0, true, none, none⟩] [kindName ++ ": " ++ reason]
    reason ts

/-- C10: a `report_error` call made while no exception is being handled
(`sys.exc_info()[2]` is `None`) produces a report whose `location` is
`None`, whose `code_context` is `None`, whose `stack_trace` is empty, and
whose `exception_chain` is exactly one link describing the synthesized
fault (index 0, `is_original` true, no relation field); exactly one report
is dispatched, the synthesized report merged with the extracted keyword
context. -/
theorem C10_manual_report (kindName : String) (mro : List String)
    (reason : String) (ccc : Bool) (lvl : String) (cl : Bool) (maxD : Nat)
    (kwargs : List (String × Value)) (ci : Option CallerInfo)
    (fs : String → FileRead) (ts : String) :
    collectErrorInfo (synthExc kindName mro reason) ccc lvl cl maxD none fs
        ts = .ok (synthInfo kindName mro reason ccc lvl cl maxD ts) ∧
    lookupD (synthInfo kindName mro reason ccc lvl cl maxD ts) "location" =
      some (RVal.loc none) ∧
    lookupD (synthInfo kindName mro reason ccc lvl cl maxD ts)
      "code_context" = some (RVal.codeCtx none) ∧
    lookupD (synthInfo kindName mro reason ccc lvl cl maxD ts)
      "stack_trace" = some (RVal.stackTr []) ∧
    errChainOf (synthInfo kindName mro reason ccc lvl cl maxD ts) =
      some [⟨kindName, reason, 0, true, none, none⟩] ∧
    reportError kindName mro reason ccc lvl cl maxD kwargs ci none fs ts =
      .ok [dictUpdate (synthInfo kindName mro reason ccc lvl cl maxD ts)
        (extractContextInfo [] (dictOfList kwargs) ci)] := by
  refine ⟨?_, ?_, ?_, ?_, ?_, ?_⟩
  · cases ccc <;> cases maxD <;> rfl
  · rfl
  · cases ccc <;> rfl
  · rfl
  · rfl
  · cases ccc <;> cases maxD <;> rfl
